import Mathlib

/-!
# Verification of the rpa-team-manager ML service against its specification

This file gives a shallow embedding, in Lean 4, of the parts of the
`ml-service` Python package that the specification's claims are about:

* `RiskScorePredictor.predict` / `_create_hybrid_predictions` /
  `_score_to_category` / `_category_to_score_range`
  (`src/models/risk_score_model.py`);
* `ConfidenceIntervalEstimator.predict_intervals` and its three interval
  strategies (`src/utils/model_utils.py`);
* the three domain `FeatureProcessor`s' `fit`/`transform` pipelines
  (`src/features/feature_engineering.py`);
* `detect_prediction_drift` (`src/utils/model_utils.py`) and
  `ModelMonitor.check_data_drift` / `log_batch_predictions`
  (`src/utils/monitoring.py`);
* `PredictorService.batch_predict` (`src/models/predictor_service.py`);
* `SHAPExplainer._fallback_explanation` (`src/utils/shap_explainer.py`).

Modelling conventions:

* Python floats are modelled by exact rationals (`ℚ`).  `NaN` (pandas
  missing values) is modelled by `Option ℚ` with `none` for `NaN`;
  arithmetic propagates `none` as IEEE arithmetic propagates `NaN`.
  Division by an exact zero denominator is mapped to `none` (real pandas
  would produce `±inf`/`NaN`); no theorem below depends on that corner.
* Opaque trained scikit-learn artifacts (the voting ensembles, the fitted
  scalers, the quantile regressors, `scipy.stats.norm.ppf`, the
  Kolmogorov–Smirnov p-value) are external collaborators: their *outputs*
  are taken as inputs of the embedded functions, or they are carried as
  explicit data (per-column affine scaler parameters, linear quantile
  models) inside the fitted state, exactly in the places where the Python
  code reads them.
* Timestamps and dates are modelled as rational day numbers.
-/

namespace RpaML

/-! ## Risk score model: `risk_score_model.py` -/

/-- `RiskScorePredictor._score_to_category` (risk_score_model.py:188-197):
`score <= 25 → 'Low'`, `<= 50 → 'Medium'`, `<= 75 → 'High'`, else `'Critical'`. -/
def scoreToCategory (score : ℚ) : String :=
  if score ≤ 25 then "Low"
  else if score ≤ 50 then "Medium"
  else if score ≤ 75 then "High"
  else "Critical"

/-- `RiskScorePredictor._category_to_score_range` (risk_score_model.py:199-207),
including the `.get(category, (0, 100))` default for unknown categories. -/
def categoryToScoreRange (category : String) : ℚ × ℚ :=
  if category = "Low" then (0, 25)
  else if category = "Medium" then (25, 50)
  else if category = "High" then (50, 75)
  else if category = "Critical" then (75, 100)
  else (0, 100)

/-- `np.max` over a probability row (used for `max_prob`); `0` on the empty
row, which never occurs for a 4-class soft-voting classifier. -/
def listMax (l : List ℚ) : ℚ :=
  l.foldl max (l.headD 0)

/-- `np.argmax`: index of the first maximal element (`0` on the empty list). -/
def argmaxIdx (l : List ℚ) : ℕ :=
  match l with
  | [] => 0
  | x :: xs => go xs x 0 1
where
  go : List ℚ → ℚ → ℕ → ℕ → ℕ
  | [], _, best, _ => best
  | y :: ys, m, best, i => if m < y then go ys y i (i + 1) else go ys m best (i + 1)

/-- `LabelEncoder.fit(['Low','Medium','High','Crit'])` sorts its classes, so
`label_encoder.classes_ = ['Critical','High','Low','Medium']`. -/
def riskClasses : List String := ["Critical", "High", "Low", "Medium"]

/-- The category predicted by the soft-voting classification ensemble for one
probability row: `VotingClassifier(voting='soft').predict` is the argmax of
the averaged probabilities, decoded through `label_encoder.inverse_transform`. -/
def predictedCategory (probs : List ℚ) : String :=
  riskClasses.getD (argmaxIdx probs) "Low"

/-- `np.clip(score, 0, 100)` (risk_score_model.py:515). -/
def clip0100 (x : ℚ) : ℚ := max 0 (min x 100)

/-- The blending step of `_create_hybrid_predictions`
(risk_score_model.py:500-512), *before* the final `np.clip`: when the
classifier's maximum probability exceeds `0.8` and the regression score lies
outside the predicted category's range, nudge the score toward the category
center with weight `min(0.3, (max_prob - 0.8) * 1.5)`. -/
def blendStep (score : ℚ) (category : String) (probs : List ℚ) : ℚ :=
  let r := categoryToScoreRange category
  let maxProb := listMax probs
  if 4/5 < maxProb then
    let center := (r.1 + r.2) / 2
    if score < r.1 ∨ r.2 < score then
      let w := min (3/10) ((maxProb - 4/5) * (3/2))
      score * (1 - w) + center * w
    else score
  else score

/-- One element of `_create_hybrid_predictions` (risk_score_model.py:492-517):
the blending step followed by `np.clip(score, 0, 100)`. -/
def hybridOne (score : ℚ) (category : String) (probs : List ℚ) : ℚ :=
  clip0100 (blendStep score category probs)

/-- `_create_hybrid_predictions` over the whole batch: zips the regression
scores with the decoded classifier categories and probability rows. -/
def createHybridPredictions (scores : List ℚ) (cats : List String)
    (probsM : List (List ℚ)) : List ℚ :=
  (scores.zip (cats.zip probsM)).map fun p => hybridOne p.1 p.2.1 p.2.2

/-- One `(risk_score, risk_category)` pair as assembled by
`RiskScorePredictor.predict` (risk_score_model.py:459-478). -/
structure RiskEntry where
  risk_score : ℚ
  risk_category : String
  deriving Repr, DecidableEq

/-- The `(risk_score, risk_category)` pairs returned by
`RiskScorePredictor.predict` (risk_score_model.py:406-490), as a function of
the opaque ensembles' outputs: `scores` are the regression ensemble's point
predictions, `probsM` the classification ensemble's probability rows.  The
decoded categories are the soft-voting argmax of each row; with `useHybrid`
the scores pass through `_create_hybrid_predictions`, otherwise they are the
raw regression outputs. -/
def riskPredictEntries (scores : List ℚ) (probsM : List (List ℚ))
    (useHybrid : Bool) : List RiskEntry :=
  let cats := probsM.map predictedCategory
  let hybrid := if useHybrid then createHybridPredictions scores cats probsM else scores
  (hybrid.zip cats).map fun p => ⟨p.1, p.2⟩

/-! ## SHAP fallback explanation: `shap_explainer.py` -/

/-- `charListPrefix pat s` : `pat` is a prefix of `s` (over character lists). -/
def charListPrefix : List Char → List Char → Bool
  | [], _ => true
  | _ :: _, [] => false
  | c :: cs, d :: ds => c == d && charListPrefix cs ds

/-- Substring test over character lists (Python's `pat in s`). -/
def charListContains : List Char → List Char → Bool
  | [], pat => charListPrefix pat []
  | c :: s', pat => charListPrefix pat (c :: s') || charListContains s' pat

/-- Python's `pat in s.lower()` as used by the name heuristics of
`SHAPExplainer._fallback_explanation` (shap_explainer.py:246-250): the
string is lowercased character-wise (as `str.lower` / `String.map
Char.toLower` does) and then searched for the pattern. -/
def strContainsLower (s pat : String) : Bool :=
  charListContains (s.data.map Char.toLower) pat.data

/-- The mock SHAP value assigned to one feature by
`SHAPExplainer._fallback_explanation` (shap_explainer.py:245-253):
`value*0.01` for `'variance'`/`'risk'`-named features,
`(100-value)*(-0.01)` for `'progress'`/`'completion'`-named features,
`value*(-0.005)` for `'velocity'`/`'efficiency'`-named features, and
`value*0.001` otherwise (branches tried in that order). -/
def fallbackMockShap (name : String) (value : ℚ) : ℚ :=
  if strContainsLower name "variance" || strContainsLower name "risk" then
    value * (1/100)
  else if strContainsLower name "progress" || strContainsLower name "completion" then
    (100 - value) * (-(1/100))
  else if strContainsLower name "velocity" || strContainsLower name "efficiency" then
    value * (-(1/200))
  else
    value * (1/1000)

/-- One entry of the `feature_contributions` dict built by
`_fallback_explanation` (shap_explainer.py:256-260). -/
structure FallbackContribution where
  feature : String
  shap_value : ℚ
  feature_value : ℚ
  contribution_type : String
  deriving Repr, DecidableEq

/-- The `feature_contributions` of one explained instance
(shap_explainer.py:242-260): one entry per fitted feature name present in
the row, in feature-name order. -/
def fallbackContributions (featureNames : List String)
    (row : List (String × ℚ)) : List FallbackContribution :=
  featureNames.filterMap fun n =>
    ((row.find? (·.1 == n)).map (·.2)).map fun v =>
      let s := fallbackMockShap n v
      ⟨n, s, v, if 0 < s then "positive" else "negative"⟩

/-- One explanation record of `_fallback_explanation`
(shap_explainer.py:269-283).  The abs-sorted `feature_contributions`
re-ordering and the derived `top_positive_features`/`top_negative_features`
rankings carry the same `shap_value` data and are not separately modelled. -/
structure FallbackExplanation where
  feature_contributions : List FallbackContribution
  base_value : ℚ
  prediction : ℚ
  note : String
  deriving Repr, DecidableEq

/-- `SHAPExplainer._fallback_explanation` (shap_explainer.py:224-292) over a
batch of rows: per row, the name-heuristic mock contributions, a mock base
value of `0`, the prediction reconstructed as the sum of mock SHAP values,
and the explicit fallback note. -/
def fallbackExplanation (featureNames : List String)
    (rows : List (List (String × ℚ))) : List FallbackExplanation :=
  rows.map fun row =>
    let cs := fallbackContributions featureNames row
    ⟨cs, 0, (cs.map (·.shap_value)).sum, "Fallback explanation - SHAP not available"⟩

/-! ## Model monitoring: `monitoring.py` and `detect_prediction_drift` -/

/-- The `prediction` payload of a logged prediction record, restricted to the
three numeric keys scanned by `_extract_prediction_values` and
`_summarize_predictions` (monitoring.py:121,299): a field is `none` when the
key is absent or its value is not numeric. -/
structure PredPayload where
  predicted_days : Option ℚ
  variance_percentage : Option ℚ
  risk_score : Option ℚ
  deriving Repr, DecidableEq

/-- The key scan of `_extract_prediction_values` (monitoring.py:295-303):
the first numeric value among `predicted_days`, `variance_percentage`,
`risk_score`, in that order (the loop `break`s at the first hit). -/
def extractValue (p : PredPayload) : Option ℚ :=
  (p.predicted_days.orElse fun _ => p.variance_percentage).orElse fun _ => p.risk_score

/-- One record of `ModelMonitor.prediction_history` as appended by
`log_prediction` (monitoring.py:56-65).  Timestamps are day numbers;
`features` is `none` for a missing dict, and a feature's value is `none`
when non-numeric.  The unused `actual_outcome` attachment is omitted. -/
structure PredictionRecord where
  timestamp : ℤ
  model_type : String
  prediction : PredPayload
  features : Option (List (String × Option ℚ))
  deriving Repr, DecidableEq

/-- `_extract_prediction_values` over a record list (monitoring.py:290-304). -/
def extractPredictionValues (records : List PredictionRecord) : List ℚ :=
  records.filterMap fun r => extractValue r.prediction

/-- The lookback filter of `check_data_drift` (monitoring.py:156-160):
records at or after the cutoff whose `model_type` matches the query
(`none` matches every type). -/
def recentPredictions (cutoff : ℤ) (modelType : Option String)
    (history : List PredictionRecord) : List PredictionRecord :=
  history.filter fun r =>
    decide (cutoff ≤ r.timestamp) &&
      (match modelType with
       | none => true
       | some mt => r.model_type == mt)

/-- `np.mean` over exact rationals (`0` on the empty list, which is guarded
at every call site). -/
def qmean (l : List ℚ) : ℚ := l.sum / l.length

/-- `np.var` (population variance) over exact rationals. -/
def qvar (l : List ℚ) : ℚ := ((l.map fun x => (x - qmean l) ^ 2).sum) / l.length

/-- The result dict of `detect_prediction_drift` (model_utils.py:599-649).
The Kolmogorov–Smirnov statistic accompanying the p-value is external scipy
output not read by any decision and is omitted. -/
structure DriftResult where
  ks_p_value : ℚ
  mean_drift_abs : ℚ
  mean_drift_rel : ℚ
  var_drift_abs : ℚ
  var_drift_rel : ℚ
  has_distribution_drift : Bool
  has_mean_drift : Bool
  has_variance_drift : Bool
  has_drift : Bool
  deriving Repr, DecidableEq

/-- `detect_prediction_drift` (model_utils.py:599-649), with the external
`scipy.stats.ks_2samp` p-value supplied by the oracle `ksP`: the combined
flag is `ks_p < 0.05` (fixed) or relative mean drift `> threshold` or
relative variance drift `> threshold`, with `1e-8` added to the
denominators. -/
def detectPredictionDrift (ksP : List ℚ → List ℚ → ℚ)
    (ref cur : List ℚ) (threshold : ℚ) : DriftResult :=
  let p := ksP ref cur
  let meanAbs := |qmean cur - qmean ref|
  let meanRel := meanAbs / (|qmean ref| + 1/100000000)
  let varAbs := |qvar cur - qvar ref|
  let varRel := varAbs / (qvar ref + 1/100000000)
  let hd := decide (p < 1/20)
  let hm := decide (threshold < meanRel)
  let hv := decide (threshold < varRel)
  ⟨p, meanAbs, meanRel, varAbs, varRel, hd, hm, hv, hd || hm || hv⟩

/-- The `prediction_drift` entry built by
`ModelMonitor._detect_prediction_drift` (monitoring.py:205-224): a
no-numeric-predictions message (with `has_drift: False`) when either half
yields no values, else the `detect_prediction_drift` result. -/
inductive PredDrift where
  | noValues
  | result (r : DriftResult)
  deriving Repr, DecidableEq

/-- `ModelMonitor._detect_prediction_drift` (monitoring.py:205-224). -/
def monitorDetectPredictionDrift (ksP : List ℚ → List ℚ → ℚ)
    (refRecords curRecords : List PredictionRecord) (threshold : ℚ) : PredDrift :=
  let rv := extractPredictionValues refRecords
  let cv := extractPredictionValues curRecords
  if rv.length = 0 ∨ cv.length = 0 then .noValues
  else .result (detectPredictionDrift ksP rv cv threshold)

/-- The flag read from the `prediction_drift` entry by the overall
assessment (monitoring.py:182-184): `False` for the message case. -/
def predDriftFlag : PredDrift → Bool
  | .noValues => false
  | .result r => r.has_drift

/-- The `feature_drift` value built by `_detect_feature_drift`
(monitoring.py:226-288): either the no-feature-data message dict or one
drift flag per common numeric feature with at least 5 samples on each side
(the per-feature p-value, relative drifts and sample sizes recorded next to
the flag feed no decision and are not separately modelled). -/
inductive FeatureDrift where
  | noData
  | perFeature (flags : List (String × Bool))
  deriving Repr, DecidableEq

/-- The numeric values of one feature across feature dicts
(monitoring.py:259-266): dicts with the key present and a numeric value. -/
def featureValuesFor (name : String)
    (featDicts : List (List (String × Option ℚ))) : List ℚ :=
  featDicts.filterMap fun d =>
    match d.find? (·.1 == name) with
    | some (_, some v) => some v
    | _ => none

/-- `ModelMonitor._detect_feature_drift` (monitoring.py:226-288) with the
external KS p-value oracle `ksP`.  A record contributes its features only
when the dict is truthy (present and non-empty); a feature's flag is
`ks_p < threshold`. -/
def detectFeatureDrift (ksP : List ℚ → List ℚ → ℚ)
    (refRecords curRecords : List PredictionRecord) (threshold : ℚ) : FeatureDrift :=
  let refFeats := refRecords.filterMap fun r =>
    match r.features with
    | some (f :: fs) => some (f :: fs)
    | _ => none
  let curFeats := curRecords.filterMap fun r =>
    match r.features with
    | some (f :: fs) => some (f :: fs)
    | _ => none
  if refFeats = [] ∨ curFeats = [] then .noData
  else
    let refNames := (refFeats.flatMap fun d => d.map (·.1)).dedup
    let curNames := (curFeats.flatMap fun d => d.map (·.1)).dedup
    let common := refNames.filter (curNames.contains ·)
    .perFeature (common.filterMap fun n =>
      let rv := featureValuesFor n refFeats
      let cv := featureValuesFor n curFeats
      if 5 ≤ rv.length ∧ 5 ≤ cv.length then
        some (n, decide (ksP rv cv < threshold))
      else none)

/-- The value returned by `ModelMonitor.check_data_drift`
(monitoring.py:138-203): the insufficient-data dict (with its literal
`drift_detected: False`) or the full report. -/
inductive DriftCheckResult where
  | insufficient (drift_detected : Bool) (message : String) (sample_size : ℕ)
  | report (prediction_drift : PredDrift) (feature_drift : FeatureDrift)
      (overall_drift_detected : Bool)
  deriving Repr, DecidableEq

/-- The overall assessment and report assembly of `check_data_drift`
(monitoring.py:178-203): attach the feature drift to the report and OR the
prediction-level flag with every feature-level flag.  In the
message-dict case, `any(result.get('has_drift', False) ...)` calls `.get`
on the `str` message value and raises an `AttributeError`, modelled as the
error case. -/
def assembleDriftReport (pd : PredDrift) : FeatureDrift → Except String DriftCheckResult
  | .noData => .error "AttributeError: 'str' object has no attribute 'get'"
  | .perFeature flags =>
      .ok (.report pd (.perFeature flags) (predDriftFlag pd || flags.any (·.2)))

/-- `ModelMonitor.check_data_drift` (monitoring.py:138-203) with
`self.drift_threshold = 0.05` (monitoring.py:37) and the KS p-value oracle
`ksP`; the `datetime.now() - lookback_days` cutoff is the `cutoff`
parameter.  Fewer than 10 recent records short-circuit to the
insufficient-data dict; otherwise the window is split at its midpoint. -/
def checkDataDrift (ksP : List ℚ → List ℚ → ℚ) (cutoff : ℤ)
    (modelType : Option String) (history : List PredictionRecord) :
    Except String DriftCheckResult :=
  let recent := recentPredictions cutoff modelType history
  if recent.length < 10 then
    .ok (.insufficient false "Insufficient data for drift detection" recent.length)
  else
    let mid := recent.length / 2
    let ref := recent.take mid
    let cur := recent.drop mid
    let pd := monitorDetectPredictionDrift ksP ref cur (1/20)
    assembleDriftReport pd (detectFeatureDrift ksP ref cur (1/20))

/-- The reference half of the drift window (monitoring.py:170-171):
`recent_predictions[:mid_point]`. -/
def driftWindowRef (cutoff : ℤ) (modelType : Option String)
    (history : List PredictionRecord) : List PredictionRecord :=
  let recent := recentPredictions cutoff modelType history
  recent.take (recent.length / 2)

/-- The current half of the drift window (monitoring.py:172):
`recent_predictions[mid_point:]`. -/
def driftWindowCur (cutoff : ℤ) (modelType : Option String)
    (history : List PredictionRecord) : List PredictionRecord :=
  let recent := recentPredictions cutoff modelType history
  recent.drop (recent.length / 2)

/-- A concrete 10-record monitoring history for the drift analysis: all
records inside the lookback window for model type `risk_score`, the older
half predicting `90, 95, 100, 105, 110` and the newer half the same values
shifted by `+7` (`97, 102, 107, 112, 117`), every record carrying the same
feature dict.  The halves then have means `100` and `107` and equal
variances, so the relative mean drift is `7 / (100 + 1e-8)` — strictly
between `0.05` and `0.1` — and the relative variance drift is `0`; the exact
two-sample Kolmogorov–Smirnov p-value for these halves (statistic `D = 2/5`
at `n = m = 5`) is `220/252 = 55/63`, far above `0.05`. -/
def C4History : List PredictionRecord :=
  [90, 95, 100, 105, 110, 97, 102, 107, 112, 117].map fun v =>
    ⟨0, "risk_score", ⟨none, none, some v⟩, some [("f", some 1)]⟩

/-! `ModelMonitor.log_batch_predictions` (monitoring.py:71-107). -/

/-- `np.min` over a nonempty rational list. -/
def listMinQ (l : List ℚ) : ℚ := l.foldl min (l.headD 0)

/-- `np.median`: mean of the two middle elements of the sorted list for even
length, the middle element for odd length. -/
def qmedianOf (l : List ℚ) : ℚ :=
  let s := l.mergeSort (· ≤ ·)
  let n := s.length
  if n % 2 = 1 then s.getD (n / 2) 0
  else (s.getD (n / 2 - 1) 0 + s.getD (n / 2) 0) / 2

/-- `_summarize_predictions` (monitoring.py:109-136): `{}` for an empty
batch, a count-only dict when no numeric values were found, else summary
statistics.  The `std` entry (an irrational square root) is external numpy
output read by no decision and is not ℚ-representable; it is omitted. -/
inductive PredictionsSummary where
  | empty
  | countOnly (count : ℕ)
  | stats (count : ℕ) (mean : ℚ) (min : ℚ) (max : ℚ) (median : ℚ)
  deriving Repr, DecidableEq

/-- `_summarize_predictions` over the payloads of a batch. -/
def summarizePredictions (preds : List PredPayload) : PredictionsSummary :=
  if preds.isEmpty then .empty
  else
    let vals := preds.filterMap extractValue
    if vals.isEmpty then .countOnly preds.length
    else .stats preds.length (qmean vals) (listMinQ vals)
      (vals.foldl max (vals.headD 0)) (qmedianOf vals)

/-- One record of `ModelMonitor.performance_history`
(monitoring.py:86-94). -/
structure BatchRecord where
  model_type : String
  model_version : Option String
  batch_size : ℕ
  processing_time_ms : ℚ
  avg_time_per_prediction_ms : ℚ
  predictions_summary : PredictionsSummary
  deriving Repr, DecidableEq

/-- `ModelMonitor.log_batch_predictions` (monitoring.py:71-107): builds the
batch record — whose `avg_time_per_prediction_ms` divides by
`len(predictions)`, raising `ZeroDivisionError` on an empty batch before
anything is recorded — and appends it to `performance_history`.  The
forwarding to the MLflow sink is wrapped in `try/except` and cannot affect
the result. -/
def logBatchPredictions (model_type : String) (predictions : List PredPayload)
    (processing_time : ℚ) (model_version : Option String)
    (performance_history : List BatchRecord) :
    Except String (BatchRecord × List BatchRecord) :=
  if predictions.length = 0 then
    .error "ZeroDivisionError: division by zero"
  else
    let record : BatchRecord :=
      { model_type := model_type
        model_version := model_version
        batch_size := predictions.length
        processing_time_ms := processing_time
        avg_time_per_prediction_ms := processing_time / predictions.length
        predictions_summary := summarizePredictions predictions }
    .ok (record, performance_history ++ [record])

/-! ## Feature engineering: `feature_engineering.py`

A pandas DataFrame is modelled as a row count plus an ordered association
list of named columns; a cell is `Option ℚ` with `none` for `NaN`.  All
modelled columns are numeric (dates are day numbers), so
`select_dtypes(include=[np.number])` keeps every column. -/

/-- A pandas DataFrame: a row count and ordered named columns of
`Option ℚ` cells (`none` = `NaN`). -/
structure Frame where
  nrows : ℕ
  cols : List (String × List (Option ℚ))
  deriving Repr, DecidableEq

/-- `df.columns`. -/
def Frame.colNames (f : Frame) : List String := f.cols.map (·.1)

/-- Column lookup (`df[name]` when present). -/
def Frame.getCol? (f : Frame) (name : String) : Option (List (Option ℚ)) :=
  (f.cols.find? (·.1 == name)).map (·.2)

/-- `df.get(name, default)`: the column when present, else the scalar
default broadcast over the rows. -/
def Frame.getD (f : Frame) (name : String) (d : ℚ) : List (Option ℚ) :=
  (f.getCol? name).getD (List.replicate f.nrows (some d))

/-- `df[name] = col`: replace in place when the name exists, else append as
the new last column. -/
def Frame.assign (f : Frame) (name : String) (col : List (Option ℚ)) : Frame :=
  if f.cols.any (·.1 == name) then
    ⟨f.nrows, f.cols.map fun c => if c.1 == name then (name, col) else c⟩
  else ⟨f.nrows, f.cols ++ [(name, col)]⟩

/-- Binary cell arithmetic: `NaN` propagates. -/
def copt2 (op : ℚ → ℚ → ℚ) : Option ℚ → Option ℚ → Option ℚ
  | some a, some b => some (op a b)
  | _, _ => none

/-- Cell division: `NaN` propagates; an exact zero denominator is mapped to
`none` (pandas would produce `±inf`/`NaN`; no claim depends on it). -/
def cdiv : Option ℚ → Option ℚ → Option ℚ
  | some a, some b => if b = 0 then none else some (a / b)
  | _, _ => none

/-- Columnwise binary operation. -/
def colOp2 (op : ℚ → ℚ → ℚ) (c1 c2 : List (Option ℚ)) : List (Option ℚ) :=
  List.zipWith (copt2 op) c1 c2

/-- Columnwise division. -/
def colDiv (c1 c2 : List (Option ℚ)) : List (Option ℚ) :=
  List.zipWith cdiv c1 c2

/-- Columnwise scalar map (`NaN` propagates). -/
def colMap (g : ℚ → ℚ) (c : List (Option ℚ)) : List (Option ℚ) :=
  c.map (Option.map g)

/-- `col.fillna(v)`. -/
def colFillna (v : ℚ) (c : List (Option ℚ)) : List (Option ℚ) :=
  c.map fun o => some (o.getD v)

/-- `pd.Series.median()` (skips `NaN`; `NaN` on an all-missing column). -/
def colMedian (c : List (Option ℚ)) : Option ℚ :=
  let vals := (c.filterMap id).mergeSort (· ≤ ·)
  let n := vals.length
  if n = 0 then none
  else if n % 2 = 1 then some (vals.getD (n / 2) 0)
  else some ((vals.getD (n / 2 - 1) 0 + vals.getD (n / 2) 0) / 2)

/-- `col.fillna(col.median())`: a no-op on an all-missing column
(`fillna(NaN)` leaves `NaN`). -/
def colFillnaMedian (c : List (Option ℚ)) : List (Option ℚ) :=
  match colMedian c with
  | none => c
  | some m => colFillna m c

/-- `str.endswith` over character lists. -/
def strEndsWith (s pat : String) : Bool :=
  charListPrefix pat.data.reverse s.data.reverse

/-- The success branch of `CompletionTimeFeatureProcessor._engineer_features`
(feature_engineering.py:132-189), on a frame whose `actual_start_date`
column is present (as the list `start`).  `now` is `pd.to_datetime('now')`
as a day number; `actual_start_date` cells are day numbers.  `.dt.days`
truncates to whole days (floor). -/
def engineerCTWith (now : ℚ) (X : Frame) (start : List (Option ℚ)) : Frame :=
  let dss := colFillna 0 (start.map (Option.map fun s => ((⌊now - s⌋ : ℤ) : ℚ)))
  let f1 := X.assign "days_since_start" dss
  let f2 := f1.assign "progress_velocity"
    (colDiv (f1.getD "progress_percentage" 0) (colMap (· + 1) (f1.getD "days_since_start" 1)))
  let f3 := f2.assign "task_completion_efficiency"
    (colDiv (f2.getD "completed_tasks" 0) (colMap (· + 1/1000000) (f2.getD "total_tasks" 1)))
  let f4 := f3.assign "budget_per_progress"
    (colDiv (f3.getD "budget_spent" 0) (colMap (· + 1/1000000) (f3.getD "progress_percentage" 1)))
  let f5 := f4.assign "team_productivity"
    (colOp2 (· * ·) (f4.getD "team_velocity" 0) (f4.getD "team_size" 1))
  let f6 := f5.assign "issue_density"
    (colDiv (f5.getD "total_issues" 0) (colMap (· + 1/1000000) (f5.getD "total_tasks" 1)))
  let f7 := f6.assign "external_dependency_ratio"
    (colDiv (f6.getD "external_dependencies" 0) (colMap (· + 1/1000000) (f6.getD "total_tasks" 1)))
  let f8 := f7.assign "scope_stability"
    (colMap (fun v => 1 / (1 + |v| / 10)) (f7.getD "scope_variance_percentage" 0))
  let f9 := f8.assign "bug_resolution_rate"
    (colDiv (f8.getD "bugs_resolved" 0) (colMap (· + 1/1000000) (f8.getD "bugs_found" 1)))
  f9.assign "client_engagement_score"
    (colMap (· / 10) (f9.getD "client_satisfaction_score" 5))

/-- `CompletionTimeFeatureProcessor._engineer_features`
(feature_engineering.py:132-189): when `actual_start_date` is missing,
`features.get('actual_start_date', 'now')` yields the scalar string
`'now'`, `pd.to_datetime('now') - pd.to_datetime('now')` is a scalar
`Timedelta`, and `.dt` raises `AttributeError` (the `.dt` accessor exists
only on a Series) — so completion-time engineering, and with it `fit` and
`transform`, raises on any frame lacking that column. -/
def engineerCT (now : ℚ) (X : Frame) : Except String Frame :=
  match X.getCol? "actual_start_date" with
  | none => .error "AttributeError: 'Timedelta' object has no attribute 'dt'"
  | some start => .ok (engineerCTWith now X start)

/-- The column names completion-time engineering assigns. -/
def ctEngineeredNames : List String :=
  ["days_since_start", "progress_velocity", "task_completion_efficiency",
   "budget_per_progress", "team_productivity", "issue_density",
   "external_dependency_ratio", "scope_stability", "bug_resolution_rate",
   "client_engagement_score"]

/-- `BudgetVarianceFeatureProcessor._engineer_features`
(feature_engineering.py:280-323). -/
def engineerBV (X : Frame) : Frame :=
  let f1 := X.assign "burn_rate_trend" (colMap (· * 30) (X.getD "daily_burn_rate" 0))
  let f2 := f1.assign "burn_rate_acceleration"
    (colDiv (f1.getD "daily_burn_rate" 0) (colMap (· + 1/1000000) (f1.getD "days_since_start" 1)))
  let f3 := f2.assign "budget_velocity"
    (colDiv (f2.getD "budget_utilization_rate" 0)
      (colMap (· + 1/1000000) (f2.getD "progress_percentage" 1)))
  let f4 := f3.assign "efficiency_trend"
    (colMap (fun v => (100 - v) / 100) (f3.getD "efficiency_percentage" 100))
  let f5 := f4.assign "scope_budget_impact"
    (colMap (· / 100) (colOp2 (· * ·) (f4.getD "scope_variance_percentage" 0)
      (f4.getD "budget_utilization_rate" 0)))
  let f6 := f5.assign "external_cost_risk"
    (colDiv (f5.getD "external_dependency_risk_cost" 0)
      (colMap (· + 1/1000000) (f5.getD "budget_allocated" 1)))
  let f7 := f6.assign "schedule_pressure"
    (colMap (max 0) (f6.getD "schedule_variance_days" 0))
  f7.assign "team_cost_efficiency"
    (colMap (· * 1000) (colDiv (f7.getD "team_velocity" 1)
      (colMap (· + 1/1000000) (f7.getD "labor_cost_to_date" 1))))

/-- The five composite health-score columns `RiskScoreFeatureProcessor`
normalizes when present (feature_engineering.py:413-420). -/
def healthScoreNames : List String :=
  ["task_health_score", "issue_health_score", "financial_health_score",
   "schedule_health_score", "team_health_score"]

/-- `RiskScoreFeatureProcessor._engineer_features`
(feature_engineering.py:408-451). -/
def engineerRS (X : Frame) : Frame :=
  let f0 := healthScoreNames.foldl (fun f s =>
    match f.getCol? s with
    | some col => f.assign (s ++ "_normalized") (colMap (· / 100) col)
    | none => f) X
  let f1 := f0.assign "deadline_pressure"
    (colMap (fun v => max 0 (-v)) (f0.getD "days_until_deadline" 365))
  let f2 := f1.assign "budget_pressure"
    (colMap (fun v => max 0 (v - 80)) (f1.getD "budget_utilization_percentage" 0))
  let f3 := f2.assign "weighted_issue_score"
    (colOp2 (· + ·)
      (colOp2 (· + ·) (colMap (· * 5) (f2.getD "critical_issues" 0))
        (colMap (· * 2) (f2.getD "major_issues" 0)))
      (colMap (· * 1) (f2.getD "open_issues" 0)))
  let f4 := f3.assign "dependency_risk"
    (colOp2 (· + ·)
      (colOp2 (· + ·) (colMap (· * 3) (f3.getD "critical_dependencies" 0))
        (colMap (· * 2) (f3.getD "external_milestones" 0)))
      (colMap (· * 1) (f3.getD "project_dependencies" 0)))
  let f5 := f4.assign "team_stability_risk"
    (colDiv (List.replicate f4.nrows (some 1)) (colMap (· / 8) (f4.getD "avg_team_hours" 8)))
  f5.assign "communication_health"
    (colDiv (f5.getD "recent_comments" 0) (colMap (· + 1/1000000) (f5.getD "total_comments" 1)))

/-- `CompletionTimeFeatureProcessor._handle_missing_values`
(feature_engineering.py:191-206): `0` for `*_percentage`/`*_rate`/`*_ratio`
columns, the column median otherwise (the `*_score` branch also uses the
median). -/
def handleMissingCT (f : Frame) : Frame :=
  ⟨f.nrows, f.cols.map fun c =>
    if strEndsWith c.1 "_percentage" || strEndsWith c.1 "_rate" || strEndsWith c.1 "_ratio" then
      (c.1, colFillna 0 c.2)
    else if strEndsWith c.1 "_score" then (c.1, colFillnaMedian c.2)
    else (c.1, colFillnaMedian c.2)⟩

/-- `BudgetVarianceFeatureProcessor._handle_missing_values`
(feature_engineering.py:325-338): `0` for `rate`/`velocity` names, median
for `cost`/`budget` names, `0` otherwise. -/
def handleMissingBV (f : Frame) : Frame :=
  ⟨f.nrows, f.cols.map fun c =>
    if strContainsLower c.1 "rate" || strContainsLower c.1 "velocity" then
      (c.1, colFillna 0 c.2)
    else if strContainsLower c.1 "cost" || strContainsLower c.1 "budget" then
      (c.1, colFillnaMedian c.2)
    else (c.1, colFillna 0 c.2)⟩

/-- `RiskScoreFeatureProcessor._handle_missing_values`
(feature_engineering.py:453-466): `50` for `score`/`health` names, `0` for
`risk` names, median otherwise. -/
def handleMissingRS (f : Frame) : Frame :=
  ⟨f.nrows, f.cols.map fun c =>
    if strContainsLower c.1 "score" || strContainsLower c.1 "health" then
      (c.1, colFillna 50 c.2)
    else if strContainsLower c.1 "risk" then (c.1, colFillna 0 c.2)
    else (c.1, colFillnaMedian c.2)⟩

/-- `df.isnull().mean()` for one column (`0` on an empty column, which the
keep-predicate below handles separately). -/
def missingFrac (c : List (Option ℚ)) : ℚ :=
  (c.countP (·.isNone) : ℚ) / c.length

/-- The missing-value filter of `CompletionTimeFeatureProcessor.fit`
(feature_engineering.py:74-75): keep the columns with
`isnull().mean() < 0.7`.  The mean over an empty column is `NaN` and
`NaN < 0.7` is false, so columns of an empty frame are all dropped. -/
def dropHighMissing (f : Frame) : Frame :=
  ⟨f.nrows, f.cols.filter fun c =>
    decide (c.2.length ≠ 0) && decide (missingFrac c.2 < 7/10)⟩

/-- `select_dtypes(include=[np.number])`: every modelled column is numeric,
so this keeps all columns. -/
def selectNumeric (f : Frame) : Frame := f

/-- All complete observation pairs of two columns (pandas `df.corr()` uses
pairwise-complete observations). -/
def completePairs (xs ys : List (Option ℚ)) : List (ℚ × ℚ) :=
  (List.zip xs ys).filterMap fun p =>
    match p.1, p.2 with
    | some a, some b => some (a, b)
    | _, _ => none

/-- `|pearson(xs, ys)| > t`, decided exactly over ℚ:
`cov² > t² · var_x · var_y` with both variances positive (via the scaled
sums `n·Σx² - (Σx)²` etc.).  A zero variance — including fewer than two
complete pairs — gives a `NaN` correlation in pandas, and `NaN > t` is
false. -/
def corrExceeds (xs ys : List (Option ℚ)) (t : ℚ) : Bool :=
  let p := completePairs xs ys
  let n : ℚ := p.length
  let sx := (p.map (·.1)).sum
  let sy := (p.map (·.2)).sum
  let sxx := (p.map fun q => q.1 * q.1).sum
  let syy := (p.map fun q => q.2 * q.2).sum
  let sxy := (p.map fun q => q.1 * q.2).sum
  let vx := n * sxx - sx * sx
  let vy := n * syy - sy * sy
  let cv := n * sxy - sx * sy
  if vx = 0 ∨ vy = 0 then false
  else decide ((t ^ 2 * (vx * vy) : ℚ) < cv ^ 2)

/-- `_remove_correlated_features` (feature_engineering.py:208-222, 340-350,
468-478): drop every column having some *earlier* column with absolute
correlation above the threshold (the upper triangle of `df.corr().abs()`);
already-condemned columns still participate as earlier columns. -/
def removeCorrelated (t : ℚ) (f : Frame) : Frame :=
  let cs := f.cols
  let bad : ℕ → Bool := fun j =>
    (List.range j).any fun i =>
      corrExceeds (cs.getD i ("", [])).2 (cs.getD j ("", [])).2 t
  ⟨f.nrows, (cs.enum.filter fun p => ! bad p.1).map (·.2)⟩

/-- The completion-time fit pipeline after engineering: drop high-missing
columns, impute, keep numeric columns, drop correlated columns (threshold
`0.95`), then read the remaining column names. -/
def ctFitNamesFrom (E : Frame) : List String :=
  (removeCorrelated (95/100)
    (selectNumeric (handleMissingCT (dropHighMissing E)))).colNames

/-- The fit-time feature-name list of `CompletionTimeFeatureProcessor.fit`
(feature_engineering.py:67-102): engineer (which raises when
`actual_start_date` is absent), then run the rest of the pipeline. -/
def ctFitNames (now : ℚ) (X : Frame) : Except String (List String) :=
  (engineerCT now X).map ctFitNamesFrom

/-- The fit-time feature-name list of `BudgetVarianceFeatureProcessor.fit`
(feature_engineering.py:232-257): engineer, impute, keep numeric columns,
drop correlated columns (threshold `0.92`) — there is *no* missing-value
drop. -/
def bvFitNames (X : Frame) : List String :=
  (removeCorrelated (92/100) (selectNumeric (handleMissingBV (engineerBV X)))).colNames

/-- The fit-time feature-name list of `RiskScoreFeatureProcessor.fit`
(feature_engineering.py:360-385): engineer, impute, keep numeric columns,
drop correlated columns (threshold `0.90`) — there is *no* missing-value
drop. -/
def rsFitNames (X : Frame) : List String :=
  (removeCorrelated (90/100) (selectNumeric (handleMissingRS (engineerRS X)))).colNames

/-- The fitted state shared by the three processors
(feature_engineering.py:24-28 plus the fitted scaler): the fit-time column
list, the fitted scaler's per-column `(center, scale)` parameters (sklearn
replaces a zero scale by `1`, so scales are nonzero), the selector's chosen
indices when one was fitted, and the fitted flag. -/
structure FittedState where
  feature_names : List String
  scalerParams : List (ℚ × ℚ)
  selectorSupport : Option (List ℕ)
  is_fitted : Bool
  deriving Repr, DecidableEq

/-- `reindex(columns=feature_names, fill_value=0)`
(feature_engineering.py:116,266,394): the fit-time columns in order, each
missing one filled with the constant `0`. -/
def reindexCols (names : List String) (fill : ℚ) (f : Frame) : Frame :=
  ⟨f.nrows, names.map fun n =>
    (n, (f.getCol? n).getD (List.replicate f.nrows (some fill)))⟩

/-- The fitted scaler's `transform`: the per-column affine map
`(x - center) / scale`. -/
def scalerTransform (params : List (ℚ × ℚ)) (f : Frame) : Frame :=
  ⟨f.nrows, (f.cols.zip params).map fun p =>
    (p.1.1, colMap (fun x => (x - p.2.1) / p.2.2) p.1.2)⟩

/-- The fitted `SelectKBest.transform` plus
`selected_feature_names = [feature_names[i] for i in support]`
(feature_engineering.py:122-128): keep the supported column positions. -/
def selectSupport (support : Option (List ℕ)) (f : Frame) : Frame :=
  match support with
  | none => f
  | some idxs => ⟨f.nrows, idxs.map fun i => f.cols.getD i ("", [])⟩

/-- The output column list of `transform`: the fit-time names restricted to
the fitted selector's choice when one exists. -/
def selectedNames (st : FittedState) : List String :=
  match st.selectorSupport with
  | none => st.feature_names
  | some idxs => idxs.map fun i => st.feature_names.getD i ""

/-- The shared `transform` body of the three processors
(feature_engineering.py:104-130, 259-278, 387-406): require the fitted
flag, re-engineer (which can itself raise, propagated here), re-impute,
reindex to the fit-time column list filling missing columns with `0`,
scale, then select. -/
def transformWith (engineer : Frame → Except String Frame)
    (handleMissing : Frame → Frame)
    (st : FittedState) (X : Frame) : Except String Frame :=
  if st.is_fitted = false then .error "Processor must be fitted before transform"
  else
    match engineer X with
    | .error e => .error e
    | .ok edf =>
      let fdf := handleMissing edf
      let re := reindexCols st.feature_names 0 fdf
      let scaled := scalerTransform st.scalerParams re
      .ok (selectSupport st.selectorSupport scaled)

/-- The three domains, carrying the completion-time processor's `now`
timestamp. -/
inductive DomainTag where
  | ct (now : ℚ)
  | bv
  | rs
  deriving Repr, DecidableEq

/-- Each domain's `_engineer_features`: only the completion-time one can
raise (on a missing `actual_start_date`); the budget-variance and risk
versions read every input through `.get` with scalar defaults, which
pandas broadcasts. -/
def domainEngineer : DomainTag → Frame → Except String Frame
  | .ct now => engineerCT now
  | .bv => fun X => .ok (engineerBV X)
  | .rs => fun X => .ok (engineerRS X)

/-- Each domain's `_handle_missing_values`. -/
def domainImpute : DomainTag → Frame → Frame
  | .ct _ => handleMissingCT
  | .bv => handleMissingBV
  | .rs => handleMissingRS

/-- Each domain's `transform`. -/
def domainTransform (d : DomainTag) : FittedState → Frame → Except String Frame :=
  transformWith (domainEngineer d) (domainImpute d)

/-- The concrete budget-variance training frame of the missing-fraction
analysis: a fully-missing column `mystery_col` (missing fraction `1`)
alongside an ordinary numeric column. -/
def bvX0 : Frame :=
  ⟨2, [("mystery_col", [none, none]), ("budget_spent", [some 1, some 2])]⟩

/-- A frame with `actual_start_date` present (so completion-time
engineering succeeds) and a second, entirely missing column, for the
completion-time missing-value drop. -/
def w7X : Frame := ⟨1, [("actual_start_date", [some 0]), ("bugs_found", [none])]⟩

/-- A concrete fitted state for the transform contract: one fit-time
feature, identity scaling, no selector. -/
def c3St : FittedState := ⟨["budget_spent"], [(0, 1)], none, true⟩


/-! ## Confidence intervals: `ConfidenceIntervalEstimator` in `model_utils.py` -/

/-- A fitted `sklearn.linear_model.QuantileRegressor`: a linear model with
one coefficient per feature and an intercept.  `predict` on one row is the
dot product plus the intercept. -/
structure LinModel where
  coefs : List ℚ
  intercept : ℚ
  deriving Repr, DecidableEq

/-- `QuantileRegressor.predict` on a single feature row. -/
def LinModel.predictOne (m : LinModel) (row : List ℚ) : ℚ :=
  m.intercept + (List.zipWith (· * ·) m.coefs row).sum

/-- The IEEE-754 double nearest `0.05`, the exact value of the Python float
literal `0.05` used as a `quantile_models` key
(model_utils.py:253): `7205759403792794 / 2^57`, in lowest terms an odd
numerator over `2^56`. -/
def float05 : ℚ := 3602879701896397 / 72057594037927936

/-- The IEEE-754 double nearest `0.95`, the exact value of the Python float
literal `0.95` used as a `quantile_models` key (model_utils.py:253):
`8556839292003942 / 2^53`, in lowest terms an odd numerator over `2^52`. -/
def float95 : ℚ := 4278419646001971 / 4503599627370496

/-- The fitted state of `ConfidenceIntervalEstimator`
(model_utils.py:208-224): the strategy name, the fitted flag, the residual
standard deviation computed by `fit` (external `np.std` output, always
nonnegative), the dict of fitted quantile regressors keyed by quantile
(`_fit_quantile_regression` inserts the Python float literals `0.05` and
`0.95` as keys — the doubles `float05` and `float95` below), and the
bootstrap matrix (rows = 100 bootstrap resamples, columns = training
prediction indices) when the bootstrap strategy was fitted. -/
structure CIEstimator where
  method : String
  is_fitted : Bool
  residual_std : ℚ
  quantile_models : List (ℚ × LinModel)
  bootstrap_predictions : Option (List (List ℚ))
  deriving Repr, DecidableEq

/-- A concrete fitted quantile-regression estimator whose two tail
regressors cross on large inputs; its dict keys are the doubles the real
`fit` stores. -/
def c2Est : CIEstimator :=
  ⟨"quantile_regression", true, 1, [(float05, ⟨[1], 0⟩), (float95, ⟨[0], 10⟩)],
    none⟩

/-- One `{'lower': .., 'upper': .., 'width': ..}` dict of
`predict_intervals`. -/
structure Interval where
  lower : ℚ
  upper : ℚ
  width : ℚ
  deriving Repr, DecidableEq

/-- Dict lookup in `self.quantile_models`. -/
def lookupQM (d : List (ℚ × LinModel)) (q : ℚ) : Option LinModel :=
  (d.find? (·.1 == q)).map (·.2)

/-- Linear interpolation at a fractional position into a sorted sample, the
core of `np.quantile`'s default `linear` method: index `⌊pos⌋`, fraction
`pos - ⌊pos⌋`, interpolating toward the next element (out-of-range access
falls back to the current element; it only occurs with fraction `0`). -/
def interpAt (s : List ℚ) (pos : ℚ) : ℚ :=
  let i : ℕ := (⌊pos⌋).toNat
  let γ : ℚ := pos - (i : ℚ)
  let a := s.getD i 0
  let b := s.getD (i + 1) a
  a + γ * (b - a)

/-- `np.quantile(xs, q)` (linear interpolation): sort, then interpolate at
position `q * (n - 1)`; `0` on the empty sample, which every caller
guards. -/
def npQuantile (xs : List ℚ) (q : ℚ) : ℚ :=
  let s := xs.mergeSort (· ≤ ·)
  if s.length = 0 then 0 else interpAt s (q * ((s.length : ℚ) - 1))

/-- `_predict_residual_intervals` (model_utils.py:383-402): symmetric
normal-approximation intervals `pred ± ppf(1 - lower_q) * residual_std`
with `width = 2 * margin`; `ppf` is the external `scipy.stats.norm.ppf`. -/
def predictResidualIntervals (ppf : ℚ → ℚ) (residual_std : ℚ)
    (predictions : List ℚ) (lowerQ : ℚ) : List Interval :=
  let z := ppf (1 - lowerQ)
  let margin := z * residual_std
  predictions.map fun p => ⟨p - margin, p + margin, 2 * margin⟩

/-- `_predict_quantile_intervals` (model_utils.py:320-349): when both tail
quantiles have fitted regressors, the bounds are the two regressors'
predictions on each feature row (`width = upper - lower`); otherwise — or
when `predict` raises inside the `try`, which sklearn does on a feature
count mismatch — it falls back to the residual intervals. -/
def predictQuantileIntervals (ppf : ℚ → ℚ) (residual_std : ℚ)
    (qms : List (ℚ × LinModel)) (predictions : List ℚ)
    (features : List (List ℚ)) (lowerQ upperQ : ℚ) : List Interval :=
  match lookupQM qms lowerQ, lookupQM qms upperQ with
  | some ml, some mu =>
      if features.all (fun r => r.length = ml.coefs.length) &&
          features.all (fun r => r.length = mu.coefs.length) then
        let lowers := features.map ml.predictOne
        let uppers := features.map mu.predictOne
        (predictions.zip (lowers.zip uppers)).map fun t =>
          ⟨t.2.1, t.2.2, t.2.2 - t.2.1⟩
      else predictResidualIntervals ppf residual_std predictions lowerQ
  | _, _ => predictResidualIntervals ppf residual_std predictions lowerQ

/-- Column `i` of the bootstrap matrix (`bootstrap_predictions[:, i]`). -/
def bsColumn (bs : List (List ℚ)) (i : ℕ) : List ℚ :=
  bs.map fun row => row.getD i 0

/-- `_predict_bootstrap_intervals` (model_utils.py:351-381): per prediction
index, the empirical quantiles of the bootstrap column when the index is in
range, else the normal-approximation margin; `width = upper - lower`; when
no bootstrap matrix was fitted, the residual fallback. -/
def predictBootstrapIntervals (ppf : ℚ → ℚ) (residual_std : ℚ)
    (bootstrap : Option (List (List ℚ))) (predictions : List ℚ)
    (lowerQ upperQ : ℚ) : List Interval :=
  match bootstrap with
  | some bs =>
      let ncols := (bs.headD []).length
      predictions.enum.map fun t =>
        if t.1 < ncols then
          let dist := bsColumn bs t.1
          let lo := npQuantile dist lowerQ
          let hi := npQuantile dist upperQ
          ⟨lo, hi, hi - lo⟩
        else
          let margin := ppf (1 - lowerQ) * residual_std
          ⟨t.2 - margin, t.2 + margin, t.2 + margin - (t.2 - margin)⟩
  | none => predictResidualIntervals ppf residual_std predictions lowerQ

/-- `ConfidenceIntervalEstimator.predict_intervals` (model_utils.py:285-318):
requires a fitted estimator; computes `lower_q = (1 - confidence)/2` and
`upper_q = 1 - (1 - confidence)/2` and dispatches on the strategy —
quantile regression when features are supplied, bootstrap, else the
residual-normal fallback. -/
def predictIntervals (ppf : ℚ → ℚ) (est : CIEstimator) (predictions : List ℚ)
    (features : Option (List (List ℚ))) (confidence : ℚ) :
    Except String (List Interval) :=
  if est.is_fitted = false then .error "Estimator not fitted. Call fit() first."
  else
    let alpha := 1 - confidence
    let lowerQ := alpha / 2
    let upperQ := 1 - alpha / 2
    match features with
    | some f =>
        if est.method = "quantile_regression" then
          .ok (predictQuantileIntervals ppf est.residual_std est.quantile_models
            predictions f lowerQ upperQ)
        else if est.method = "bootstrap" then
          .ok (predictBootstrapIntervals ppf est.residual_std
            est.bootstrap_predictions predictions lowerQ upperQ)
        else .ok (predictResidualIntervals ppf est.residual_std predictions lowerQ)
    | none =>
        if est.method = "bootstrap" then
          .ok (predictBootstrapIntervals ppf est.residual_std
            est.bootstrap_predictions predictions lowerQ upperQ)
        else .ok (predictResidualIntervals ppf est.residual_std predictions lowerQ)

/-! ## Batch prediction fan-out: `predictor_service.py` -/

/-- One formatted per-project prediction as produced by a successful
`predict_<domain>` call (e.g. predictor_service.py:478-492): its
`project_id` (possibly `None` when the caller supplied more rows than ids)
and the rest of the formatted payload, opaque for the fan-out logic. -/
structure BatchPredEntry where
  project_id : Option ℤ
  payload : String
  deriving Repr, DecidableEq

/-- The awaited outcome of one domain's `predict_<domain>` task inside
`batch_predict` (predictor_service.py:569-575): either the result dict —
represented by its `predictions` list, the only part the fan-out reads — or
the exception message captured as `{'error': str(e)}`. -/
inductive DomainResult where
  | ok (preds : List BatchPredEntry)
  | err (msg : String)
  deriving Repr, DecidableEq

/-- One cell of the per-project result map (predictor_service.py:581-596):
the failed domain's error dict, a found per-project prediction, or the
`{'error': 'No prediction found'}` placeholder. -/
inductive BatchCell where
  | errorEntry (msg : String)
  | predEntry (p : BatchPredEntry)
  deriving Repr, DecidableEq

/-- The domain tokens `batch_predict` recognises
(predictor_service.py:554-562); any other requested type is skipped by the
`continue`. -/
def validPredTypes : List String := ["completion_time", "budget_variance", "risk_score"]

/-- The cell chosen for one project and one domain result
(predictor_service.py:581-596): an error result is copied verbatim;
otherwise the first prediction whose `project_id` equals the project is
used, else the no-prediction error entry. -/
def cellFor (pid : ℤ) : DomainResult → BatchCell
  | .err m => .errorEntry m
  | .ok preds =>
      match preds.find? (fun p => p.project_id == some pid) with
      | some p => .predEntry p
      | none => .errorEntry "No prediction found"

/-- `PredictorService.batch_predict` (predictor_service.py:533-598) as a
function of the per-domain task outcomes `outcome` (each recognised
requested domain's `predict_<domain>` call either returns its predictions
or raises, and the exception is captured per domain): the per-project map,
as an association list in `project_ids` order, each row holding one cell
per recognised requested domain.  Duplicate requested types overwrite a
Python dict key with the identical value; the association-list image is
lookup-equivalent. -/
def batchPredict (project_ids : List ℤ) (prediction_types : List String)
    (outcome : String → DomainResult) : List (ℤ × List (String × BatchCell)) :=
  let tasks := prediction_types.filter (validPredTypes.contains ·)
  let predictionResults := tasks.map fun t => (t, outcome t)
  project_ids.map fun pid =>
    (pid, predictionResults.map fun tr => (tr.1, cellFor pid tr.2))

/-! # Theorems

All claim theorems, their witnesses and counterexamples, together with the
helper lemmas they use. -/

/-- `df[name] = col` leaves every other column lookup unchanged. -/
theorem assign_getCol?_ne {f : Frame} {n m : String}
    {col : List (Option ℚ)} (hne : n ≠ m) :
    (f.assign m col).getCol? n = f.getCol? n := by
  unfold Frame.assign Frame.getCol?
  by_cases h : f.cols.any (·.1 == m)
  · rw [if_pos h]
    simp only
    suffices hfind : ∀ l : List (String × List (Option ℚ)),
        (l.map fun c => if c.1 == m then (m, col) else c).find? (·.1 == n) =
          l.find? (·.1 == n) by rw [hfind]
    intro l
    induction l with
    | nil => rfl
    | cons c cs ih =>
      simp only [List.map_cons]
      by_cases hcnp : c.1 = n
      · have hcm : ¬(c.1 == m) = true := by
          simp only [beq_iff_eq, hcnp]
          exact hne
        rw [if_neg hcm]
        rw [@List.find?_cons_of_pos _ (fun x => x.1 == n) c _ (by simp [hcnp]),
          @List.find?_cons_of_pos _ (fun x => x.1 == n) c _ (by simp [hcnp])]
      · by_cases hc : (c.1 == m) = true
        · rw [if_pos hc]
          rw [@List.find?_cons_of_neg _ (fun x => x.1 == n) (m, col) _
              (by simp [Ne.symm hne]),
            @List.find?_cons_of_neg _ (fun x => x.1 == n) c _ (by simp [hcnp])]
          exact ih
        · rw [if_neg hc]
          rw [@List.find?_cons_of_neg _ (fun x => x.1 == n) c _ (by simp [hcnp]),
            @List.find?_cons_of_neg _ (fun x => x.1 == n) c _ (by simp [hcnp])]
          exact ih
  · rw [if_neg h]
    simp only [List.find?_append]
    have hsingle : List.find? (fun x : String × List (Option ℚ) => x.1 == n)
        [(m, col)] = none := by
      rw [@List.find?_cons_of_neg _ (fun x => x.1 == n) (m, col) _
        (by simp [Ne.symm hne])]
      rfl
    rw [hsingle]
    cases List.find? (fun x : String × List (Option ℚ) => x.1 == n) f.cols <;> rfl

/-- `df[name] = col` preserves duplicate-freeness of the column names. -/
theorem assign_nodup {f : Frame} {m : String} {col : List (Option ℚ)}
    (h : f.colNames.Nodup) : (f.assign m col).colNames.Nodup := by
  unfold Frame.assign Frame.colNames at *
  by_cases hany : f.cols.any (·.1 == m)
  · rw [if_pos hany]
    simp only [List.map_map]
    have : List.map ((·.1) ∘ fun c => if c.1 == m then (m, col) else c) f.cols =
        List.map (·.1) f.cols := by
      apply List.map_congr_left
      intro c _
      by_cases hc : (c.1 == m) = true
      · simp only [Function.comp, if_pos hc]
        exact (beq_iff_eq.mp hc).symm
      · simp only [Function.comp, if_neg hc]
    rw [this]
    exact h
  · rw [if_neg hany]
    simp only [List.map_append, List.map_cons, List.map_nil]
    rw [List.nodup_append]
    refine ⟨h, List.nodup_singleton m, ?_⟩
    intro a ha hb
    rw [List.mem_singleton] at hb
    subst hb
    rcases List.mem_map.mp ha with ⟨c, hc, hfst⟩
    have := (List.any_eq_false.mp (Bool.eq_false_iff.mpr hany)) c hc
    simp only [hfst] at this
    simp at this

/-- `df[name] = col` with a different name preserves the head entry. -/
theorem assign_head?_ne {f : Frame} {n m : String} {c col : List (Option ℚ)}
    (hh : f.cols.head? = some (n, c)) (hne : (n == m) = false) :
    (f.assign m col).cols.head? = some (n, c) := by
  unfold Frame.assign
  by_cases hany : f.cols.any (·.1 == m)
  · rw [if_pos hany]
    simp only [List.head?_map, hh, Option.map_some']
    rw [if_neg (by simp [hne])]
  · rw [if_neg hany]
    simp only
    cases hcols : f.cols with
    | nil => rw [hcols] at hh; simp at hh
    | cons a as =>
      rw [hcols] at hh
      simp only [List.head?_cons, Option.some.injEq] at hh
      simp [hh]

/-- A uniquely named entry is what `getCol?` finds. -/
theorem getCol?_of_mem_nodup {f : Frame} {n : String} {c : List (Option ℚ)}
    (hnd : f.colNames.Nodup) (hmem : (n, c) ∈ f.cols) :
    f.getCol? n = some c := by
  unfold Frame.getCol? Frame.colNames at *
  suffices hgen : ∀ l : List (String × List (Option ℚ)),
      (l.map (·.1)).Nodup → (n, c) ∈ l → l.find? (·.1 == n) = some (n, c) by
    rw [hgen f.cols hnd hmem]
    rfl
  intro l hnd' hmem'
  induction l with
  | nil => simp at hmem'
  | cons a as ih =>
    simp only [List.map_cons, List.nodup_cons] at hnd'
    rcases List.mem_cons.mp hmem' with heq | htail
    · subst heq
      rw [@List.find?_cons_of_pos _ (fun x => x.1 == n) (n, c) as (by simp)]
    · have hna : ¬ (fun x : String × List (Option ℚ) => x.1 == n) a = true := by
        simp only [beq_iff_eq]
        intro heq
        exact hnd'.1 (heq ▸ List.mem_map_of_mem (·.1) htail)
      rw [@List.find?_cons_of_neg _ (fun x => x.1 == n) a as hna]
      exact ih hnd'.2 htail

/-- `_remove_correlated_features` only ever removes whole columns. -/
theorem removeCorrelated_cols_subset (t : ℚ) (f : Frame) :
    (removeCorrelated t f).cols ⊆ f.cols := by
  intro e he
  simp only [removeCorrelated] at he
  rcases List.mem_map.mp he with ⟨p, hp, rfl⟩
  have hp' : p ∈ f.cols.enum := List.mem_of_mem_filter hp
  rw [← List.enum_map_snd f.cols]
  exact List.mem_map_of_mem _ hp'

/-- Removing correlated columns only ever removes column names. -/
theorem removeCorrelated_colNames_subset (t : ℚ) (f : Frame) :
    (removeCorrelated t f).colNames ⊆ f.colNames := by
  intro n hn
  simp only [Frame.colNames] at hn ⊢
  rcases List.mem_map.mp hn with ⟨e, he, rfl⟩
  exact List.mem_map_of_mem _ (removeCorrelated_cols_subset t f he)

/-- The completion-time `_handle_missing_values` preserves the column
names. -/
theorem handleMissingCT_colNames (f : Frame) :
    (handleMissingCT f).colNames = f.colNames := by
  simp only [handleMissingCT, Frame.colNames, List.map_map]
  apply List.map_congr_left
  intro c _
  simp only [Function.comp]
  split
  · rfl
  · split <;> rfl

/-- A name surviving the missing-value filter comes from a column whose
missing fraction is below `0.7`. -/
theorem dropHighMissing_mem {f : Frame} {n : String}
    (hn : n ∈ (dropHighMissing f).colNames) :
    ∃ c, (n, c) ∈ f.cols ∧ c.length ≠ 0 ∧ missingFrac c < 7/10 := by
  simp only [dropHighMissing, Frame.colNames] at hn
  rcases List.mem_map.mp hn with ⟨e, he, rfl⟩
  have hmem : e ∈ f.cols := List.mem_of_mem_filter he
  have hpred := List.of_mem_filter he
  simp only [Bool.and_eq_true, decide_eq_true_eq] at hpred
  exact ⟨e.2, hmem, hpred.1, hpred.2⟩

/-- Completion-time feature engineering leaves a column it does not assign
untouched. -/
theorem engineerCTWith_getCol?_ne {now : ℚ} {X : Frame}
    {start : List (Option ℚ)} {n : String} (hn : n ∉ ctEngineeredNames) :
    (engineerCTWith now X start).getCol? n = X.getCol? n := by
  simp only [ctEngineeredNames, List.mem_cons, List.not_mem_nil, or_false,
    not_or] at hn
  obtain ⟨h1, h2, h3, h4, h5, h6, h7, h8, h9, h10⟩ := hn
  simp only [engineerCTWith]
  rw [assign_getCol?_ne h10, assign_getCol?_ne h9, assign_getCol?_ne h8,
    assign_getCol?_ne h7, assign_getCol?_ne h6, assign_getCol?_ne h5,
    assign_getCol?_ne h4, assign_getCol?_ne h3, assign_getCol?_ne h2,
    assign_getCol?_ne h1]

/-- Completion-time feature engineering keeps column names
duplicate-free. -/
theorem engineerCTWith_nodup {now : ℚ} {X : Frame} {start : List (Option ℚ)}
    (h : X.colNames.Nodup) : (engineerCTWith now X start).colNames.Nodup := by
  simp only [engineerCTWith]
  exact assign_nodup (assign_nodup (assign_nodup (assign_nodup (assign_nodup
    (assign_nodup (assign_nodup (assign_nodup (assign_nodup
      (assign_nodup h)))))))))

/-- Removing correlated columns keeps the first column: no earlier column
exists to condemn it. -/
theorem removeCorrelated_head {t : ℚ} {f : Frame}
    {e : String × List (Option ℚ)} (hh : f.cols.head? = some e) :
    (removeCorrelated t f).cols.head? = some e := by
  simp only [removeCorrelated]
  cases hcols : f.cols with
  | nil => rw [hcols] at hh; simp at hh
  | cons a as =>
    rw [hcols] at hh
    simp only [List.head?_cons, Option.some.injEq] at hh
    simp [List.enum_cons, List.filter_cons, hh]

/-- The head column's name is a column name. -/
theorem head?_mem_colNames {f : Frame} {e : String × List (Option ℚ)}
    (hh : f.cols.head? = some e) : e.1 ∈ f.colNames := by
  cases hcols : f.cols with
  | nil => rw [hcols] at hh; simp at hh
  | cons a as =>
    rw [hcols] at hh
    simp only [List.head?_cons, Option.some.injEq] at hh
    subst hh
    simp [Frame.colNames, hcols]

/-- `reindex(columns=names)` outputs exactly the requested names. -/
theorem reindex_colNames (names : List String) (fill : ℚ) (f : Frame) :
    (reindexCols names fill f).colNames = names := by
  simp only [reindexCols, Frame.colNames]
  induction names with
  | nil => rfl
  | cons a as ih =>
    simp only [List.map_cons, List.cons.injEq]
    exact ⟨by simp, ih⟩

/-- `find?` over a name-keyed map of names. -/
theorem find?_map_pair {β : Type} (v : String → β) :
    ∀ (names : List String) (n : String), n ∈ names →
      (names.map fun m => (m, v m)).find? (·.1 == n) = some (n, v n)
  | [], n, hn => absurd hn (List.not_mem_nil n)
  | a :: as, n, hn => by
    simp only [List.map_cons]
    by_cases ha : a = n
    · subst ha
      rw [@List.find?_cons_of_pos _ (fun x : String × β => x.1 == a) (a, v a) _
        (by simp)]
    · have hn' : n ∈ as := by
        rcases List.mem_cons.mp hn with h | h
        · exact absurd h.symm ha
        · exact h
      rw [@List.find?_cons_of_neg _ (fun x : String × β => x.1 == n) (a, v a) _
        (by simp [ha])]
      exact find?_map_pair v as n hn'

/-- `getCol?` on a literal frame. -/
theorem getCol?_mk (nr : ℕ) (cols : List (String × List (Option ℚ)))
    (n : String) :
    Frame.getCol? ⟨nr, cols⟩ n = (cols.find? (·.1 == n)).map (·.2) := rfl

/-- `reindex(columns, fill_value)` looked up at a requested name: the
existing column when present, else the fill value broadcast over the
rows. -/
theorem reindex_getCol? {names : List String} {fill : ℚ} {f : Frame}
    {n : String} (hn : n ∈ names) :
    (reindexCols names fill f).getCol? n =
      some ((f.getCol? n).getD (List.replicate f.nrows (some fill))) := by
  rw [show reindexCols names fill f = ⟨f.nrows, names.map fun m =>
      (m, (f.getCol? m).getD (List.replicate f.nrows (some fill)))⟩ from rfl]
  rw [getCol?_mk]
  rw [find?_map_pair
    (fun m => (f.getCol? m).getD (List.replicate f.nrows (some fill))) names n hn]
  rfl

/-- The fitted scaler maps column names through unchanged (when it has
parameters for every column). -/
theorem scaler_cols_fst :
    ∀ (cols : List (String × List (Option ℚ))) (ps : List (ℚ × ℚ)),
      cols.length ≤ ps.length →
      ((cols.zip ps).map fun p =>
        (p.1.1, colMap (fun x => (x - p.2.1) / p.2.2) p.1.2)).map (·.1) =
        cols.map (·.1)
  | [], _, _ => rfl
  | c :: cols, q :: ps, h => by
    simp only [List.zip_cons_cons, List.map_cons, List.cons.injEq]
    exact ⟨by simp, scaler_cols_fst cols ps (by simpa using h)⟩
  | c :: cols, [], h => by simp at h

/-- `StandardScaler.transform` preserves the column names when fitted on as
many columns. -/
theorem scalerTransform_colNames {ps : List (ℚ × ℚ)} {f : Frame}
    (h : f.cols.length ≤ ps.length) :
    (scalerTransform ps f).colNames = f.colNames := by
  simp only [scalerTransform, Frame.colNames]
  exact scaler_cols_fst f.cols ps h

/-- Positional entry-name lookup in a frame is positional lookup in
`colNames`. -/
theorem colNames_getD (f : Frame) (i : ℕ) :
    (f.cols.getD i ("", [])).1 = f.colNames.getD i "" := by
  by_cases hi : i < f.cols.length
  · have hi' : i < f.colNames.length := by simpa [Frame.colNames] using hi
    rw [List.getD_eq_getElem _ _ hi, List.getD_eq_getElem _ _ hi']
    simp [Frame.colNames]
  · have hle : f.cols.length ≤ i := Nat.le_of_not_lt hi
    have hle' : f.colNames.length ≤ i := by simpa [Frame.colNames] using hle
    rw [List.getD_eq_default _ _ hle, List.getD_eq_default _ _ hle']

/-- Elements of a `(· ≤ ·)`-sorted rational list are monotone in the index
(read through `getD`, for in-range indices). -/
theorem sorted_getD_mono {s : List ℚ} (hs : s.Sorted (· ≤ ·))
    {i j : ℕ} (hij : i ≤ j) (hj : j < s.length) (d d' : ℚ) :
    s.getD i d ≤ s.getD j d' := by
  have hi : i < s.length := lt_of_le_of_lt hij hj
  rw [List.getD_eq_getElem s d hi, List.getD_eq_getElem s d' hj]
  rcases eq_or_lt_of_le hij with rfl | hlt
  · exact le_refl _
  · exact List.pairwise_iff_getElem.mp hs i j hi hj hlt

/-- Linear interpolation into a sorted sample is monotone in the position
(over the position range `np.quantile` produces). -/
theorem interpAt_mono {s : List ℚ} (hs : s.Sorted (· ≤ ·))
    {p1 p2 : ℚ} (h0 : 0 ≤ p1) (h12 : p1 ≤ p2) (h2 : p2 ≤ (s.length : ℚ) - 1) :
    interpAt s p1 ≤ interpAt s p2 := by
  have hp20 : 0 ≤ p2 := le_trans h0 h12
  have hn : 1 ≤ s.length := by
    by_contra hlen
    push_neg at hlen
    have hlen0 : s.length = 0 := Nat.lt_one_iff.mp hlen
    rw [hlen0] at h2
    norm_num at h2
    linarith
  have h1nn : 0 ≤ ⌊p1⌋ := Int.floor_nonneg.mpr h0
  have h2nn : 0 ≤ ⌊p2⌋ := Int.floor_nonneg.mpr hp20
  have hi1c : ((⌊p1⌋.toNat : ℕ) : ℚ) = ((⌊p1⌋ : ℤ) : ℚ) := by
    rw [← Int.toNat_of_nonneg h1nn]
    push_cast
    rw [Int.toNat_of_nonneg h1nn]
  have hi2c : ((⌊p2⌋.toNat : ℕ) : ℚ) = ((⌊p2⌋ : ℤ) : ℚ) := by
    rw [← Int.toNat_of_nonneg h2nn]
    push_cast
    rw [Int.toNat_of_nonneg h2nn]
  have hg10 : 0 ≤ p1 - ((⌊p1⌋.toNat : ℕ) : ℚ) := by
    rw [hi1c]
    have := Int.floor_le p1
    linarith
  have hg11 : p1 - ((⌊p1⌋.toNat : ℕ) : ℚ) < 1 := by
    rw [hi1c]
    have := Int.lt_floor_add_one p1
    push_cast at this
    linarith
  have hg20 : 0 ≤ p2 - ((⌊p2⌋.toNat : ℕ) : ℚ) := by
    rw [hi2c]
    have := Int.floor_le p2
    linarith
  have hi2lt : ⌊p2⌋.toNat < s.length := by
    have hfl : ((⌊p2⌋ : ℤ) : ℚ) ≤ (s.length : ℚ) - 1 := le_trans (Int.floor_le p2) h2
    have h' : ((⌊p2⌋.toNat : ℕ) : ℚ) < (s.length : ℚ) := by
      rw [hi2c]; linarith
    exact_mod_cast h'
  have hi12 : ⌊p1⌋.toNat ≤ ⌊p2⌋.toNat :=
    Int.toNat_le_toNat (Int.floor_le_floor h12)
  simp only [interpAt]
  rcases eq_or_lt_of_le hi12 with heq | hlt
  · -- same interpolation cell: the slope factor is shared
    rw [← heq] at hi2c hg20 hi2lt ⊢
    have hab : s.getD ⌊p1⌋.toNat 0 ≤
        s.getD (⌊p1⌋.toNat + 1) (s.getD ⌊p1⌋.toNat 0) := by
      by_cases hcase : ⌊p1⌋.toNat + 1 < s.length
      · exact sorted_getD_mono hs (Nat.le_succ _) hcase 0 _
      · have hdef : s.getD (⌊p1⌋.toNat + 1) (s.getD ⌊p1⌋.toNat 0) =
            s.getD ⌊p1⌋.toNat 0 := List.getD_eq_default _ _ (by omega)
        rw [hdef]
    have hmul := mul_le_mul_of_nonneg_right
      (sub_le_sub_right h12 ((⌊p1⌋.toNat : ℕ) : ℚ)) (sub_nonneg.mpr hab)
    linarith
  · -- the first position interpolates below its cell's right end, which is
    -- at most the second cell's left end
    have hi1succ : ⌊p1⌋.toNat + 1 < s.length := lt_of_le_of_lt hlt hi2lt
    have hab1 : s.getD ⌊p1⌋.toNat 0 ≤
        s.getD (⌊p1⌋.toNat + 1) (s.getD ⌊p1⌋.toNat 0) :=
      sorted_getD_mono hs (Nat.le_succ _) hi1succ 0 _
    have hb1a2 : s.getD (⌊p1⌋.toNat + 1) (s.getD ⌊p1⌋.toNat 0) ≤
        s.getD ⌊p2⌋.toNat 0 :=
      sorted_getD_mono hs hlt hi2lt _ 0
    have hab2 : s.getD ⌊p2⌋.toNat 0 ≤
        s.getD (⌊p2⌋.toNat + 1) (s.getD ⌊p2⌋.toNat 0) := by
      by_cases hcase : ⌊p2⌋.toNat + 1 < s.length
      · exact sorted_getD_mono hs (Nat.le_succ _) hcase 0 _
      · have hdef : s.getD (⌊p2⌋.toNat + 1) (s.getD ⌊p2⌋.toNat 0) =
            s.getD ⌊p2⌋.toNat 0 := List.getD_eq_default _ _ (by omega)
        rw [hdef]
    have hstep1 : s.getD ⌊p1⌋.toNat 0 +
        (p1 - ((⌊p1⌋.toNat : ℕ) : ℚ)) *
          (s.getD (⌊p1⌋.toNat + 1) (s.getD ⌊p1⌋.toNat 0) - s.getD ⌊p1⌋.toNat 0) ≤
        s.getD (⌊p1⌋.toNat + 1) (s.getD ⌊p1⌋.toNat 0) := by
      have := mul_le_mul_of_nonneg_right (le_of_lt hg11) (sub_nonneg.mpr hab1)
      linarith
    have hstep2 : s.getD ⌊p2⌋.toNat 0 ≤ s.getD ⌊p2⌋.toNat 0 +
        (p2 - ((⌊p2⌋.toNat : ℕ) : ℚ)) *
          (s.getD (⌊p2⌋.toNat + 1) (s.getD ⌊p2⌋.toNat 0) - s.getD ⌊p2⌋.toNat 0) := by
      have := mul_nonneg hg20 (sub_nonneg.mpr hab2)
      linarith
    calc s.getD ⌊p1⌋.toNat 0 +
        (p1 - ((⌊p1⌋.toNat : ℕ) : ℚ)) *
          (s.getD (⌊p1⌋.toNat + 1) (s.getD ⌊p1⌋.toNat 0) - s.getD ⌊p1⌋.toNat 0)
        ≤ s.getD (⌊p1⌋.toNat + 1) (s.getD ⌊p1⌋.toNat 0) := hstep1
      _ ≤ s.getD ⌊p2⌋.toNat 0 := hb1a2
      _ ≤ _ := hstep2

/-- `np.quantile` on a fixed nonempty sample is monotone in the quantile. -/
theorem npQuantile_mono (xs : List ℚ) (hne : xs ≠ []) {q1 q2 : ℚ}
    (h0 : 0 ≤ q1) (h12 : q1 ≤ q2) (h1 : q2 ≤ 1) :
    npQuantile xs q1 ≤ npQuantile xs q2 := by
  unfold npQuantile
  have hlen : (xs.mergeSort (· ≤ ·)).length = xs.length := List.length_mergeSort xs
  have hne' : xs.length ≠ 0 := by
    simpa [List.length_eq_zero] using hne
  rw [if_neg (by rw [hlen]; exact hne'), if_neg (by rw [hlen]; exact hne')]
  have hpos : (0:ℚ) ≤ ((xs.mergeSort (· ≤ ·)).length : ℚ) - 1 := by
    rw [hlen]
    have : 1 ≤ xs.length := Nat.one_le_iff_ne_zero.mpr hne'
    have : (1:ℚ) ≤ (xs.length : ℚ) := by exact_mod_cast this
    linarith
  apply interpAt_mono (List.sorted_mergeSort' xs)
  · exact mul_nonneg h0 hpos
  · exact mul_le_mul_of_nonneg_right h12 hpos
  · calc q2 * (((xs.mergeSort (· ≤ ·)).length : ℚ) - 1)
        ≤ 1 * (((xs.mergeSort (· ≤ ·)).length : ℚ) - 1) :=
          mul_le_mul_of_nonneg_right h1 hpos
      _ = ((xs.mergeSort (· ≤ ·)).length : ℚ) - 1 := one_mul _

/-- Every residual-normal interval has `width = upper - lower`, and is
ordered when the margin is nonnegative. -/
theorem mem_predictResidualIntervals {ppf : ℚ → ℚ} {rstd : ℚ} {preds : List ℚ}
    {lowerQ : ℚ} {iv : Interval}
    (hm : 0 ≤ ppf (1 - lowerQ) * rstd)
    (h : iv ∈ predictResidualIntervals ppf rstd preds lowerQ) :
    iv.width = iv.upper - iv.lower ∧ iv.lower ≤ iv.upper := by
  simp only [predictResidualIntervals] at h
  rcases List.mem_map.mp h with ⟨p, _, rfl⟩
  refine ⟨by ring, by dsimp only; linarith⟩

/-- Every bootstrap interval has `width = upper - lower` and is ordered,
given a nonempty bootstrap matrix and `0 ≤ lower_q ≤ upper_q ≤ 1`. -/
theorem mem_predictBootstrapIntervals {ppf : ℚ → ℚ} {rstd : ℚ}
    {bs : List (List ℚ)} {preds : List ℚ} {lowerQ upperQ : ℚ} {iv : Interval}
    (hm : 0 ≤ ppf (1 - lowerQ) * rstd) (hbs : bs ≠ [])
    (h0 : 0 ≤ lowerQ) (h12 : lowerQ ≤ upperQ) (h1 : upperQ ≤ 1)
    (h : iv ∈ predictBootstrapIntervals ppf rstd (some bs) preds lowerQ upperQ) :
    iv.width = iv.upper - iv.lower ∧ iv.lower ≤ iv.upper := by
  simp only [predictBootstrapIntervals] at h
  rcases List.mem_map.mp h with ⟨t, _, rfl⟩
  by_cases hc : t.1 < (bs.headD []).length
  · have hcol : bsColumn bs t.1 ≠ [] := by
      simp only [bsColumn, ne_eq, List.map_eq_nil_iff]
      exact hbs
    constructor
    · rw [if_pos hc]
    · rw [if_pos hc]
      exact npQuantile_mono (bsColumn bs t.1) hcol h0 h12 h1
  · constructor
    · rw [if_neg hc]
    · rw [if_neg hc]
      show t.2 - ppf (1 - lowerQ) * rstd ≤ t.2 + ppf (1 - lowerQ) * rstd
      linarith

/-- When the fitted-quantile-models branch condition fails, the quantile
path is exactly the residual fallback. -/
theorem predictQuantileIntervals_fallback {ppf : ℚ → ℚ} {rstd : ℚ}
    {qms : List (ℚ × LinModel)} {preds : List ℚ} {features : List (List ℚ)}
    {lowerQ upperQ : ℚ}
    (hnot : (match lookupQM qms lowerQ, lookupQM qms upperQ with
      | some ml, some mu =>
          features.all (fun r => r.length = ml.coefs.length) &&
            features.all (fun r => r.length = mu.coefs.length)
      | _, _ => false) = false) :
    predictQuantileIntervals ppf rstd qms preds features lowerQ upperQ =
      predictResidualIntervals ppf rstd preds lowerQ := by
  unfold predictQuantileIntervals
  split
  · rename_i ml mu hml hmu
    rw [hml, hmu] at hnot
    have hnot' : ((features.all fun r => r.length = ml.coefs.length) &&
        (features.all fun r => r.length = mu.coefs.length)) = false := hnot
    rw [hnot']
    simp
  · rfl

/-- Every quantile-path interval has `width = upper - lower` (on the model
branch by construction, on the fallback via the residual margin). -/
theorem mem_predictQuantileIntervals_width {ppf : ℚ → ℚ} {rstd : ℚ}
    {qms : List (ℚ × LinModel)} {preds : List ℚ} {features : List (List ℚ)}
    {lowerQ upperQ : ℚ} {iv : Interval}
    (hm : 0 ≤ ppf (1 - lowerQ) * rstd)
    (h : iv ∈ predictQuantileIntervals ppf rstd qms preds features lowerQ upperQ) :
    iv.width = iv.upper - iv.lower := by
  unfold predictQuantileIntervals at h
  split at h
  · split at h
    · rcases List.mem_map.mp h with ⟨t, _, rfl⟩
      rfl
    · exact (mem_predictResidualIntervals hm h).1
  · exact (mem_predictResidualIntervals hm h).1

/-- The bootstrap dispatcher (matrix present or not) yields ordered
intervals with `width = upper - lower`. -/
theorem predictBootstrapIntervals_props {ppf : ℚ → ℚ} {rstd : ℚ}
    {bootstrap : Option (List (List ℚ))} {preds : List ℚ} {lowerQ upperQ : ℚ}
    (hm : 0 ≤ ppf (1 - lowerQ) * rstd)
    (hbs : ∀ bs, bootstrap = some bs → bs ≠ [])
    (h0 : 0 ≤ lowerQ) (h12 : lowerQ ≤ upperQ) (h1 : upperQ ≤ 1) :
    ∀ iv ∈ predictBootstrapIntervals ppf rstd bootstrap preds lowerQ upperQ,
      iv.width = iv.upper - iv.lower ∧ iv.lower ≤ iv.upper := by
  intro iv h
  cases bootstrap with
  | some bs => exact mem_predictBootstrapIntervals hm (hbs bs rfl) h0 h12 h1 h
  | none => exact mem_predictResidualIntervals hm h

/-- No double confidence level in `[0.5, 1)` makes `(1 - c)/2` hit the dict
key `float(0.05)`: for a double `c = n/2^53`, `1 - c` and the halving are
exact (Sterbenz), so `lower_q = (2^53 - n)/2^54`, while `float05` in lowest
terms is an odd numerator over `2^56` — the equality would force
`4*n = 32425917317067571`, an odd number. -/
theorem float05_ne_lowerQ (n : ℕ) :
    float05 ≠ (1 - (n : ℚ) / 2 ^ 53) / 2 := by
  intro heq
  simp only [float05] at heq
  have h4 : (4 : ℚ) * n = 32425917317067571 := by linarith
  have h4n : 4 * n = 32425917317067571 := by exact_mod_cast h4
  omega

/-- Nor can `(1 - c)/2` hit the key `float(0.95)`: for `c ≥ 1/2` it is at
most `1/4`. -/
theorem float95_ne_lowerQ {n : ℕ} (hn : 2 ^ 52 ≤ n) :
    float95 ≠ (1 - (n : ℚ) / 2 ^ 53) / 2 := by
  intro heq
  simp only [float95] at heq
  have hc : ((2 : ℚ) ^ 52) ≤ (n : ℚ) := by exact_mod_cast hn
  norm_num at heq
  linarith

/-- `lower_q in self.quantile_models` fails when no key equals it. -/
theorem lookupQM_eq_none {qms : List (ℚ × LinModel)} {q : ℚ}
    (h : ∀ km ∈ qms, km.1 ≠ q) : lookupQM qms q = none := by
  unfold lookupQM
  rw [List.find?_eq_none.mpr]
  · rfl
  · intro x hx
    simp only [beq_iff_eq]
    exact h x hx

/-- C2: for every fitted estimator whose quantile-model dict holds (at
most) the keys the real `fit` stores — the doubles `float(0.05)` and
`float(0.95)` — every prediction vector, and every confidence level that is
an IEEE double in `[0.5, 0.99]` (`confidence = n/2^53` with
`n ≥ 2^52`; subtraction from `1` and halving are then exact, so the exact
rational arithmetic below *is* the float arithmetic), `predict_intervals`
succeeds and every returned interval satisfies `width = upper - lower` and
`lower ≤ upper`: the float `lower_q` never equals a dict key, so the
fitted-quantile-regressor branch (model_utils.py:330) is dead code and the
ordered residual-normal fallback runs instead.  The estimator premises:
fitted flag set, nonnegative residual standard deviation (an `np.std`
output), the standard-normal `ppf` nonnegative on `[1/2, 1)`, and a
nonempty bootstrap matrix when one was fitted. -/
theorem C2_intervals_width_and_ordering (ppf : ℚ → ℚ) (est : CIEstimator)
    (predictions : List ℚ) (features : Option (List (List ℚ)))
    (confidence : ℚ) (n : ℕ)
    (hfit : est.is_fitted = true)
    (hstd : 0 ≤ est.residual_std)
    (hppf : ∀ q, 1/2 ≤ q → 0 ≤ ppf q)
    (hkeys : ∀ km ∈ est.quantile_models, km.1 = float05 ∨ km.1 = float95)
    (hc : confidence = (n : ℚ) / 2 ^ 53) (hn : 2 ^ 52 ≤ n)
    (hc2 : confidence ≤ 99/100)
    (hbs : ∀ bs, est.bootstrap_predictions = some bs → bs ≠ []) :
    ∃ ivs, predictIntervals ppf est predictions features confidence = .ok ivs ∧
      ∀ iv ∈ ivs, iv.width = iv.upper - iv.lower ∧ iv.lower ≤ iv.upper := by
  have hc1 : 1/2 ≤ confidence := by
    rw [hc]
    have hcq : ((2 : ℚ) ^ 52) ≤ (n : ℚ) := by exact_mod_cast hn
    rw [le_div_iff₀ (by norm_num)]
    linarith
  have hm : 0 ≤ ppf (1 - (1 - confidence)/2) * est.residual_std :=
    mul_nonneg (hppf _ (by linarith)) hstd
  have h0q : 0 ≤ (1 - confidence)/2 := by linarith
  have h12q : (1 - confidence)/2 ≤ 1 - (1 - confidence)/2 := by linarith
  have h1q : 1 - (1 - confidence)/2 ≤ 1 := by linarith
  rcases features with _ | f
  · -- no features: bootstrap or residual path
    by_cases hb : est.method = "bootstrap"
    · refine ⟨predictBootstrapIntervals ppf est.residual_std
        est.bootstrap_predictions predictions ((1 - confidence)/2)
        (1 - (1 - confidence)/2), ?_, ?_⟩
      · simp only [predictIntervals]
        rw [if_neg (by simp [hfit]), if_pos hb]
      · intro iv h
        exact predictBootstrapIntervals_props hm hbs h0q h12q h1q iv h
    · refine ⟨predictResidualIntervals ppf est.residual_std predictions
        ((1 - confidence)/2), ?_, ?_⟩
      · simp only [predictIntervals]
        rw [if_neg (by simp [hfit]), if_neg hb]
      · intro iv h
        exact mem_predictResidualIntervals hm h
  · -- features supplied
    by_cases hq : est.method = "quantile_regression"
    · have hq0 : lookupQM est.quantile_models ((1 - confidence)/2) = none := by
        apply lookupQM_eq_none
        intro km hkm
        rcases hkeys km hkm with h5 | h95
        · rw [h5, hc]
          exact float05_ne_lowerQ n
        · rw [h95, hc]
          exact float95_ne_lowerQ hn
      refine ⟨predictQuantileIntervals ppf est.residual_std est.quantile_models
        predictions f ((1 - confidence)/2) (1 - (1 - confidence)/2), ?_, ?_⟩
      · simp only [predictIntervals]
        rw [if_neg (by simp [hfit]), if_pos hq]
      · intro iv h
        rw [predictQuantileIntervals_fallback (by rw [hq0])] at h
        exact mem_predictResidualIntervals hm h
    · by_cases hb : est.method = "bootstrap"
      · refine ⟨predictBootstrapIntervals ppf est.residual_std
          est.bootstrap_predictions predictions ((1 - confidence)/2)
          (1 - (1 - confidence)/2), ?_, ?_⟩
        · simp only [predictIntervals]
          rw [if_neg (by simp [hfit]), if_neg hq, if_pos hb]
        · intro iv h
          exact predictBootstrapIntervals_props hm hbs h0q h12q h1q iv h
      · refine ⟨predictResidualIntervals ppf est.residual_std predictions
          ((1 - confidence)/2), ?_, ?_⟩
        · simp only [predictIntervals]
          rw [if_neg (by simp [hfit]), if_neg hq, if_neg hb]
        · intro iv h
          exact mem_predictResidualIntervals hm h

/-- C2 (witness): the theorem applied to the concrete estimator `c2Est`
(crossing tail regressors under the real float keys), on the feature row
`[20]` at confidence `float(0.9) = 8106479329266893/2^53`: the dict lookup
misses, the residual fallback runs, and the interval is ordered. -/
theorem C2_intervals_width_and_ordering_witness :
    c2Est.is_fitted = true ∧
    (2 ^ 52 ≤ 8106479329266893) ∧
    ((8106479329266893 : ℚ) / 2 ^ 53 ≤ 99/100) ∧
    (∃ ivs, predictIntervals (fun _ => 1) c2Est [0] (some [[20]])
        ((8106479329266893 : ℚ) / 2 ^ 53) = .ok ivs ∧
      ∀ iv ∈ ivs, iv.width = iv.upper - iv.lower ∧ iv.lower ≤ iv.upper) :=
  ⟨rfl, by norm_num, by norm_num,
    C2_intervals_width_and_ordering (fun _ => 1) c2Est [0] (some [[20]])
      ((8106479329266893 : ℚ) / 2 ^ 53) 8106479329266893 rfl
      (by norm_num [c2Est]) (fun q hq => by norm_num)
      (by
        intro km hkm
        rcases List.mem_cons.mp hkm with h | h
        · rw [h]
          exact Or.inl rfl
        · rcases List.mem_cons.mp h with h2 | h2
          · rw [h2]
            exact Or.inr rfl
          · simp at h2)
      (by norm_num) (by norm_num) (by norm_num)
      (fun bs hbs => by simp [c2Est] at hbs)⟩

/-- `np.clip(·, 0, 100)` keeps its output inside `[0, 100]`. -/
theorem clip0100_bounds (x : ℚ) : 0 ≤ clip0100 x ∧ clip0100 x ≤ 100 := by
  unfold clip0100
  constructor
  · exact le_max_left 0 (min x 100)
  · exact max_le (by norm_num) (min_le_right x 100)

/-- Every hybrid score is a clipped blend step. -/
theorem mem_createHybridPredictions {scores : List ℚ} {cats : List String}
    {probsM : List (List ℚ)} {x : ℚ} (hx : x ∈ createHybridPredictions scores cats probsM) :
    ∃ s c p, x = hybridOne s c p := by
  unfold createHybridPredictions at hx
  rcases List.mem_map.mp hx with ⟨q, _, hq⟩
  exact ⟨q.1, q.2.1, q.2.2, hq.symm⟩


/-! ## Theorems for claims C1 and C6 -/

/-- C1 (counterexample): `RiskScorePredictor.predict` in default hybrid mode,
on a batch whose regression ensemble outputs score `10` and whose
classification ensemble outputs the probability row
`[0.4, 0.3, 0.2, 0.1]` (predicted category `'Critical'`, max probability
`0.4 ≤ 0.8`, so no blending), returns `risk_score = 10` paired with
`risk_category = 'Critical'`, while the fixed score-to-category mapping sends
`10` to `'Low'`: the returned category does not equal the mapping applied to
the returned score. -/
theorem C1_counterexample :
    ∃ e ∈ riskPredictEntries [10] [[2/5, 3/10, 1/5, 1/10]] true,
      e.risk_category ≠ scoreToCategory e.risk_score := by
  have h : riskPredictEntries [10] [[2/5, 3/10, 1/5, 1/10]] true =
      [⟨10, "Critical"⟩] := by
    norm_num [riskPredictEntries, createHybridPredictions, hybridOne, blendStep,
      clip0100, predictedCategory, argmaxIdx, argmaxIdx.go, listMax,
      categoryToScoreRange, riskClasses]
  rw [h]
  refine ⟨⟨10, "Critical"⟩, List.mem_singleton_self _, ?_⟩
  norm_num [scoreToCategory]
  simp

/-- C1 (amended): for every risk-domain prediction returned by
`RiskScorePredictor.predict` with hybrid mode enabled (the default), the
`risk_score` lies in `[0, 100]`; the accompanying `risk_category` is the
classification ensemble's predicted label, which need not equal the fixed
score-to-category mapping applied to that score. -/
theorem C1_hybrid_risk_score_clamped (scores : List ℚ) (probsM : List (List ℚ)) :
    ∀ e ∈ riskPredictEntries scores probsM true,
      0 ≤ e.risk_score ∧ e.risk_score ≤ 100 := by
  intro e he
  unfold riskPredictEntries at he
  simp only [if_pos] at he
  rcases List.mem_map.mp he with ⟨q, hq, rfl⟩
  rcases (List.of_mem_zip hq).1 |> mem_createHybridPredictions with ⟨s, c, p, hx⟩
  simpa [hx, hybridOne] using clip0100_bounds (blendStep s c p)

/-- C1 (witness): the clamp theorem applied to a concrete batch — score
`10`, probability row `[0.4, 0.3, 0.2, 0.1]` — whose single returned entry
has its risk score inside `[0, 100]`. -/
theorem C1_hybrid_risk_score_clamped_witness :
    (⟨10, "Critical"⟩ : RiskEntry) ∈
      riskPredictEntries [10] [[2/5, 3/10, 1/5, 1/10]] true ∧
    0 ≤ (⟨10, "Critical"⟩ : RiskEntry).risk_score ∧
    (⟨10, "Critical"⟩ : RiskEntry).risk_score ≤ 100 := by
  have h : riskPredictEntries [10] [[2/5, 3/10, 1/5, 1/10]] true =
      [⟨10, "Critical"⟩] := by
    norm_num [riskPredictEntries, createHybridPredictions, hybridOne, blendStep,
      clip0100, predictedCategory, argmaxIdx, argmaxIdx.go, listMax,
      categoryToScoreRange, riskClasses]
  have hmem : (⟨10, "Critical"⟩ : RiskEntry) ∈
      riskPredictEntries [10] [[2/5, 3/10, 1/5, 1/10]] true := by
    rw [h]
    exact List.mem_singleton_self _
  exact ⟨hmem, C1_hybrid_risk_score_clamped [10] [[2/5, 3/10, 1/5, 1/10]]
    ⟨10, "Critical"⟩ hmem⟩

/-- C6: in `_create_hybrid_predictions`, the blending step always produces a
convex combination of the regression score and the predicted category's
midpoint with blend weight `w ∈ [0, 0.3]` (at most a 30% adjustment toward
the category center), and the weight is `0` — the score is left unchanged —
whenever the classification ensemble's maximum category probability is at
most `0.8`. -/
theorem C6_hybrid_blend_bounded (score : ℚ) (category : String) (probs : List ℚ) :
    ∃ w : ℚ, 0 ≤ w ∧ w ≤ 3/10 ∧
      blendStep score category probs =
        score * (1 - w) +
          ((categoryToScoreRange category).1 + (categoryToScoreRange category).2) / 2 * w ∧
      (listMax probs ≤ 4/5 → w = 0) := by
  unfold blendStep
  by_cases h : (4 : ℚ)/5 < listMax probs
  · by_cases hout : score < (categoryToScoreRange category).1 ∨
        (categoryToScoreRange category).2 < score
    · refine ⟨min (3/10) ((listMax probs - 4/5) * (3/2)), ?_, min_le_left _ _, ?_, ?_⟩
      · exact le_min (by norm_num) (by nlinarith)
      · simp [h, hout]
      · intro hle; exact absurd h (not_lt.mpr hle)
    · refine ⟨0, le_refl 0, by norm_num, ?_, fun _ => rfl⟩
      simp [h, hout]
  · refine ⟨0, le_refl 0, by norm_num, ?_, fun _ => rfl⟩
    simp [h]

/-- C8 (counterexample): on the fallback path, the feature `'risk_level'`
(name contains `'risk'`) with feature value `-1` receives the signed
contribution `-0.01`, which is not positive — the heuristic multiplies the
feature value by `0.01`, so the sign follows the feature value. -/
theorem C8_counterexample :
    ∃ e ∈ fallbackExplanation ["risk_level"] [[("risk_level", -1)]],
      ∃ c ∈ e.feature_contributions,
        strContainsLower c.feature "risk" = true ∧ ¬ (0 < c.shap_value) := by
  have hb1 : (strContainsLower "risk_level" "variance" ||
      strContainsLower "risk_level" "risk") = true := by decide
  have hs : fallbackMockShap "risk_level" (-1) = -(1/100) := by
    rw [fallbackMockShap, if_pos hb1]; norm_num
  have hC : fallbackContributions ["risk_level"] [("risk_level", -1)] =
      [⟨"risk_level", fallbackMockShap "risk_level" (-1), -1,
        if 0 < fallbackMockShap "risk_level" (-1) then "positive" else "negative"⟩] := rfl
  have hE : fallbackExplanation ["risk_level"] [[("risk_level", -1)]] =
      [⟨fallbackContributions ["risk_level"] [("risk_level", -1)], 0,
        ((fallbackContributions ["risk_level"] [("risk_level", -1)]).map
          (·.shap_value)).sum, "Fallback explanation - SHAP not available"⟩] := rfl
  rw [hE]
  refine ⟨_, List.mem_singleton_self _,
    ⟨"risk_level", fallbackMockShap "risk_level" (-1), -1,
      if 0 < fallbackMockShap "risk_level" (-1) then "positive" else "negative"⟩,
    ?_, by decide, ?_⟩
  · show _ ∈ fallbackContributions ["risk_level"] [("risk_level", -1)]
    rw [hC]; exact List.mem_singleton_self _
  · show ¬ ((0:ℚ) < fallbackMockShap "risk_level" (-1))
    rw [hs]; norm_num

/-- C8 (amended): on the fallback path, a feature whose name contains
`'variance'` or `'risk'` receives the contribution `value * 0.01`, which is
positive exactly when the stored feature value is positive; a feature whose
name contains `'progress'` or `'completion'` (and not `'variance'`/`'risk'`,
which take precedence) receives `(100 - value) * (-0.01)`, which is negative
exactly when the stored feature value is below `100`. -/
theorem C8_fallback_contribution_signs (featureNames : List String)
    (rows : List (List (String × ℚ))) :
    ∀ e ∈ fallbackExplanation featureNames rows, ∀ c ∈ e.feature_contributions,
      if (strContainsLower c.feature "variance" || strContainsLower c.feature "risk") then
        c.shap_value = c.feature_value * (1/100) ∧ (0 < c.shap_value ↔ 0 < c.feature_value)
      else if (strContainsLower c.feature "progress" ||
          strContainsLower c.feature "completion") then
        c.shap_value = (100 - c.feature_value) * (-(1/100)) ∧
          (c.shap_value < 0 ↔ c.feature_value < 100)
      else True := by
  intro e he c hc
  have hstruct : ∃ n v, c.feature = n ∧ c.feature_value = v ∧
      c.shap_value = fallbackMockShap n v := by
    unfold fallbackExplanation at he
    rcases List.mem_map.mp he with ⟨row, _, rfl⟩
    simp only at hc
    unfold fallbackContributions at hc
    rcases List.mem_filterMap.mp hc with ⟨n, _, hn⟩
    rcases Option.map_eq_some'.mp hn with ⟨v, hv, rfl⟩
    rcases Option.map_eq_some'.mp hv with ⟨w, _, rfl⟩
    exact ⟨n, w.2, rfl, rfl, rfl⟩
  rcases hstruct with ⟨n, v, hn, hv, hs⟩
  subst hn hv
  by_cases h1 : (strContainsLower c.feature "variance" ||
      strContainsLower c.feature "risk") = true
  · rw [if_pos h1]
    rw [hs, fallbackMockShap, if_pos h1]
    exact ⟨rfl, by constructor <;> intro <;> nlinarith⟩
  · rw [if_neg h1]
    by_cases h2 : (strContainsLower c.feature "progress" ||
        strContainsLower c.feature "completion") = true
    · rw [if_pos h2]
      rw [hs, fallbackMockShap, if_neg h1, if_pos h2]
      exact ⟨rfl, by constructor <;> intro <;> nlinarith⟩
    · rw [if_neg h2]
      trivial

/-- C8 (witness): the sign characterisation instantiated on a concrete
fallback run: feature `'cost_variance'` with value `3` in a one-row batch. -/
theorem C8_fallback_contribution_signs_witness :
    fallbackMockShap "cost_variance" 3 = 3 * (1/100) ∧
      (0 < fallbackMockShap "cost_variance" 3 ↔ (0:ℚ) < 3) := by
  have hC : fallbackContributions ["cost_variance"] [("cost_variance", 3)] =
      [⟨"cost_variance", fallbackMockShap "cost_variance" 3, 3,
        if 0 < fallbackMockShap "cost_variance" 3 then "positive" else "negative"⟩] := rfl
  have hE : fallbackExplanation ["cost_variance"] [[("cost_variance", 3)]] =
      [⟨fallbackContributions ["cost_variance"] [("cost_variance", 3)], 0,
        ((fallbackContributions ["cost_variance"] [("cost_variance", 3)]).map
          (·.shap_value)).sum, "Fallback explanation - SHAP not available"⟩] := rfl
  have h := C8_fallback_contribution_signs ["cost_variance"] [[("cost_variance", 3)]]
    _ (hE ▸ List.mem_singleton_self _) _ (hC ▸ List.mem_singleton_self _)
  rw [if_pos (by decide :
    (strContainsLower "cost_variance" "variance" ||
      strContainsLower "cost_variance" "risk") = true)] at h
  exact h

/-- C6 (witness): the blend theorem instantiated at a concrete score,
category and probability row. -/
theorem C6_hybrid_blend_bounded_witness :
    ∃ w : ℚ, 0 ≤ w ∧ w ≤ 3/10 ∧
      blendStep 60 "Low" [9/10, 1/10] =
        60 * (1 - w) +
          ((categoryToScoreRange "Low").1 + (categoryToScoreRange "Low").2) / 2 * w ∧
      (listMax [9/10, 1/10] ≤ 4/5 → w = 0) :=
  C6_hybrid_blend_bounded 60 "Low" [9/10, 1/10]

/-- C9: whenever the lookback window holds fewer than 10 matching records,
`ModelMonitor.check_data_drift` returns (does not raise) the non-error
insufficient-data report: drift flag `False`, the insufficient-data message,
and the sample size. -/
theorem C9_insufficient_data (ksP : List ℚ → List ℚ → ℚ) (cutoff : ℤ)
    (modelType : Option String) (history : List PredictionRecord)
    (h : (recentPredictions cutoff modelType history).length < 10) :
    checkDataDrift ksP cutoff modelType history =
      .ok (.insufficient false "Insufficient data for drift detection"
        (recentPredictions cutoff modelType history).length) := by
  unfold checkDataDrift
  rw [if_pos h]

/-- C9 (witness): `check_data_drift` on an empty history returns the
insufficient-data report with sample size `0`. -/
theorem C9_insufficient_data_witness :
    checkDataDrift (fun _ _ => 1) 0 none [] =
      .ok (.insufficient false "Insufficient data for drift detection"
        (recentPredictions 0 none []).length) :=
  C9_insufficient_data (fun _ _ => 1) 0 none [] (by decide)

/-- C4 (counterexample): `check_data_drift` on the 10-record history
`C4History` — KS p-value `55/63`, relative mean drift `7/(100+1e-8)`
(between `0.05` and `0.1`), relative variance drift `0` — reports
prediction-level drift (`has_drift = true`, because the monitor passes its
own `drift_threshold = 0.05` as the relative threshold), while the claim's
condition "`p < 0.05` or relative mean drift `> 0.1` or relative variance
drift `> 0.1`" is false there. -/
theorem C4_counterexample :
    ∃ fd ov,
      checkDataDrift (fun _ _ => (55:ℚ)/63) 0 (some "risk_score") C4History =
        .ok (.report (.result (detectPredictionDrift (fun _ _ => (55:ℚ)/63)
          [90, 95, 100, 105, 110] [97, 102, 107, 112, 117] (1/20))) fd ov) ∧
      (detectPredictionDrift (fun _ _ => (55:ℚ)/63)
          [90, 95, 100, 105, 110] [97, 102, 107, 112, 117] (1/20)).has_drift = true ∧
      ¬ ((detectPredictionDrift (fun _ _ => (55:ℚ)/63)
            [90, 95, 100, 105, 110] [97, 102, 107, 112, 117] (1/20)).ks_p_value < 1/20 ∨
         1/10 < (detectPredictionDrift (fun _ _ => (55:ℚ)/63)
            [90, 95, 100, 105, 110] [97, 102, 107, 112, 117] (1/20)).mean_drift_rel ∨
         1/10 < (detectPredictionDrift (fun _ _ => (55:ℚ)/63)
            [90, 95, 100, 105, 110] [97, 102, 107, 112, 117] (1/20)).var_drift_rel) := by
  have h1 : qmean [(90:ℚ), 95, 100, 105, 110] = 100 := by norm_num [qmean]
  have h2 : qmean [(97:ℚ), 102, 107, 112, 117] = 107 := by norm_num [qmean]
  have h3 : qvar [(90:ℚ), 95, 100, 105, 110] = 50 := by norm_num [qvar, qmean]
  have h4 : qvar [(97:ℚ), 102, 107, 112, 117] = 50 := by norm_num [qvar, qmean]
  have hmr : (detectPredictionDrift (fun _ _ => (55:ℚ)/63)
      [90, 95, 100, 105, 110] [97, 102, 107, 112, 117] (1/20)).mean_drift_rel =
      700000000/10000000001 := by
    show |qmean [(97:ℚ), 102, 107, 112, 117] - qmean [(90:ℚ), 95, 100, 105, 110]| /
        (|qmean [(90:ℚ), 95, 100, 105, 110]| + 1/100000000) = _
    rw [h1, h2]
    rw [show |(107:ℚ) - 100| = 7 by rw [abs_of_nonneg] <;> norm_num,
      show |(100:ℚ)| = 100 from abs_of_nonneg (by norm_num)]
    norm_num
  have hvr : (detectPredictionDrift (fun _ _ => (55:ℚ)/63)
      [90, 95, 100, 105, 110] [97, 102, 107, 112, 117] (1/20)).var_drift_rel = 0 := by
    show |qvar [(97:ℚ), 102, 107, 112, 117] - qvar [(90:ℚ), 95, 100, 105, 110]| /
        (qvar [(90:ℚ), 95, 100, 105, 110] + 1/100000000) = _
    rw [h3, h4]
    norm_num
  have hk : (detectPredictionDrift (fun _ _ => (55:ℚ)/63)
      [90, 95, 100, 105, 110] [97, 102, 107, 112, 117] (1/20)).ks_p_value = 55/63 := rfl
  refine ⟨.perFeature [("f", decide ((55:ℚ)/63 < 1/20))],
    predDriftFlag (.result (detectPredictionDrift (fun _ _ => (55:ℚ)/63)
      [90, 95, 100, 105, 110] [97, 102, 107, 112, 117] (1/20))) ||
      [("f", decide ((55:ℚ)/63 < 1/20))].any (·.2), rfl, ?_, ?_⟩
  · show (decide ((55:ℚ)/63 < 1/20) ||
        decide ((1:ℚ)/20 < (detectPredictionDrift (fun _ _ => (55:ℚ)/63)
          [90, 95, 100, 105, 110] [97, 102, 107, 112, 117] (1/20)).mean_drift_rel) ||
        decide ((1:ℚ)/20 < (detectPredictionDrift (fun _ _ => (55:ℚ)/63)
          [90, 95, 100, 105, 110] [97, 102, 107, 112, 117] (1/20)).var_drift_rel)) = true
    rw [hmr, hvr]
    norm_num
  · rw [hk, hmr, hvr]
    norm_num

/-- C4 (amended): with at least 10 records in the lookback window, both
window halves yielding at least one numeric prediction value, and feature
data present (without which the overall assessment raises an
`AttributeError`), the prediction-level drift flag of
`ModelMonitor.check_data_drift` is true exactly when the Kolmogorov–Smirnov
p-value between the two halves is below `0.05`, or the relative mean drift
exceeds `0.05`, or the relative variance drift exceeds `0.05` — the monitor
passes its own `drift_threshold = 0.05`, not the `0.1` default of
`detect_prediction_drift`, for the relative thresholds. -/
theorem C4_prediction_drift_flag (ksP : List ℚ → List ℚ → ℚ) (cutoff : ℤ)
    (modelType : Option String) (history : List PredictionRecord)
    (h10 : ¬ (recentPredictions cutoff modelType history).length < 10)
    (href : (extractPredictionValues (driftWindowRef cutoff modelType history)).length ≠ 0)
    (hcur : (extractPredictionValues (driftWindowCur cutoff modelType history)).length ≠ 0)
    (hfeat : detectFeatureDrift ksP (driftWindowRef cutoff modelType history)
      (driftWindowCur cutoff modelType history) (1/20) ≠ .noData) :
    ∃ fd ov,
      checkDataDrift ksP cutoff modelType history =
        .ok (.report (.result (detectPredictionDrift ksP
          (extractPredictionValues (driftWindowRef cutoff modelType history))
          (extractPredictionValues (driftWindowCur cutoff modelType history))
          (1/20))) fd ov) ∧
      ((detectPredictionDrift ksP
          (extractPredictionValues (driftWindowRef cutoff modelType history))
          (extractPredictionValues (driftWindowCur cutoff modelType history))
          (1/20)).has_drift = true ↔
        (ksP (extractPredictionValues (driftWindowRef cutoff modelType history))
            (extractPredictionValues (driftWindowCur cutoff modelType history)) < 1/20 ∨
          1/20 < |qmean (extractPredictionValues (driftWindowCur cutoff modelType history)) -
              qmean (extractPredictionValues (driftWindowRef cutoff modelType history))| /
              (|qmean (extractPredictionValues (driftWindowRef cutoff modelType history))| +
                1/100000000) ∨
          1/20 < |qvar (extractPredictionValues (driftWindowCur cutoff modelType history)) -
              qvar (extractPredictionValues (driftWindowRef cutoff modelType history))| /
              (qvar (extractPredictionValues (driftWindowRef cutoff modelType history)) +
                1/100000000))) := by
  obtain ⟨flags, hflags⟩ : ∃ flags,
      detectFeatureDrift ksP (driftWindowRef cutoff modelType history)
        (driftWindowCur cutoff modelType history) (1/20) = .perFeature flags := by
    cases hfd : detectFeatureDrift ksP (driftWindowRef cutoff modelType history)
        (driftWindowCur cutoff modelType history) (1/20) with
    | noData => exact absurd hfd hfeat
    | perFeature flags => exact ⟨flags, rfl⟩
  have hpd : monitorDetectPredictionDrift ksP
      (driftWindowRef cutoff modelType history)
      (driftWindowCur cutoff modelType history) (1/20) =
      .result (detectPredictionDrift ksP
        (extractPredictionValues (driftWindowRef cutoff modelType history))
        (extractPredictionValues (driftWindowCur cutoff modelType history)) (1/20)) := by
    unfold monitorDetectPredictionDrift
    rw [if_neg]
    push_neg
    exact ⟨href, hcur⟩
  refine ⟨.perFeature flags,
    predDriftFlag (.result (detectPredictionDrift ksP
      (extractPredictionValues (driftWindowRef cutoff modelType history))
      (extractPredictionValues (driftWindowCur cutoff modelType history))
      (1/20))) || flags.any (·.2), ?_, ?_⟩
  · have hmain : checkDataDrift ksP cutoff modelType history =
        assembleDriftReport (monitorDetectPredictionDrift ksP
          (driftWindowRef cutoff modelType history)
          (driftWindowCur cutoff modelType history) (1/20))
        (detectFeatureDrift ksP (driftWindowRef cutoff modelType history)
          (driftWindowCur cutoff modelType history) (1/20)) := by
      unfold checkDataDrift
      rw [if_neg h10]
      rfl
    rw [hmain, hflags, hpd]
    rfl
  · constructor
    · intro h
      have := h
      simp only [detectPredictionDrift, Bool.or_eq_true, decide_eq_true_eq] at this
      tauto
    · intro h
      simp only [detectPredictionDrift, Bool.or_eq_true, decide_eq_true_eq]
      tauto

/-- C4 (witness): the amended flag characterisation applied to a concrete
10-record window whose halves each carry five numeric predictions and a
feature dict. -/
theorem C4_prediction_drift_flag_witness :
    ∃ fd ov,
      checkDataDrift (fun _ _ => (1:ℚ)) 0 (some "risk_score") C4History =
        .ok (.report (.result (detectPredictionDrift (fun _ _ => (1:ℚ))
          (extractPredictionValues (driftWindowRef 0 (some "risk_score") C4History))
          (extractPredictionValues (driftWindowCur 0 (some "risk_score") C4History))
          (1/20))) fd ov) ∧
      ((detectPredictionDrift (fun _ _ => (1:ℚ))
          (extractPredictionValues (driftWindowRef 0 (some "risk_score") C4History))
          (extractPredictionValues (driftWindowCur 0 (some "risk_score") C4History))
          (1/20)).has_drift = true ↔
        ((fun (_ _ : List ℚ) => (1:ℚ))
            (extractPredictionValues (driftWindowRef 0 (some "risk_score") C4History))
            (extractPredictionValues (driftWindowCur 0 (some "risk_score") C4History)) < 1/20 ∨
          1/20 < |qmean (extractPredictionValues (driftWindowCur 0 (some "risk_score") C4History)) -
              qmean (extractPredictionValues (driftWindowRef 0 (some "risk_score") C4History))| /
              (|qmean (extractPredictionValues (driftWindowRef 0 (some "risk_score") C4History))| +
                1/100000000) ∨
          1/20 < |qvar (extractPredictionValues (driftWindowCur 0 (some "risk_score") C4History)) -
              qvar (extractPredictionValues (driftWindowRef 0 (some "risk_score") C4History))| /
              (qvar (extractPredictionValues (driftWindowRef 0 (some "risk_score") C4History)) +
                1/100000000))) :=
  C4_prediction_drift_flag (fun _ _ => (1:ℚ)) 0 (some "risk_score") C4History
    (by decide) (by decide) (by decide) (by decide)

/-- C5: in `PredictorService.batch_predict`, when one requested domain's
prediction raises (its outcome is the captured error) and another requested
domain succeeds with a prediction for every requested project, the call
still returns the per-project map: every project's row carries the explicit
error entry for the failed domain and a valid prediction entry for the
succeeding domain — the failure does not abort the batch. -/
theorem C5_batch_error_isolation (ids : List ℤ) (types : List String)
    (outcome : String → DomainResult) (dFail dOk msg : String)
    (preds : List BatchPredEntry)
    (hFailMem : dFail ∈ types) (hFailValid : dFail ∈ validPredTypes)
    (hOkMem : dOk ∈ types) (hOkValid : dOk ∈ validPredTypes)
    (hfail : outcome dFail = .err msg) (hok : outcome dOk = .ok preds)
    (hcov : ∀ pid ∈ ids, ∃ p ∈ preds, p.project_id = some pid) :
    ∀ pid ∈ ids, ∃ row, (pid, row) ∈ batchPredict ids types outcome ∧
      (dFail, BatchCell.errorEntry msg) ∈ row ∧
      ∃ p, (dOk, BatchCell.predEntry p) ∈ row ∧ p.project_id = some pid := by
  intro pid hpid
  refine ⟨((types.filter (validPredTypes.contains ·)).map fun t => (t, outcome t)).map
      (fun tr => (tr.1, cellFor pid tr.2)), ?_, ?_, ?_⟩
  · unfold batchPredict
    exact List.mem_map.mpr ⟨pid, hpid, rfl⟩
  · have hmem : dFail ∈ types.filter (validPredTypes.contains ·) :=
      List.mem_filter.mpr ⟨hFailMem, List.elem_eq_true_of_mem hFailValid⟩
    have h1 : (dFail, outcome dFail) ∈
        (types.filter (validPredTypes.contains ·)).map fun t => (t, outcome t) :=
      List.mem_map.mpr ⟨dFail, hmem, rfl⟩
    have h2 := List.mem_map_of_mem
      (fun tr : String × DomainResult => (tr.1, cellFor pid tr.2)) h1
    simpa [hfail, cellFor] using h2
  · obtain ⟨p, hp, hpi⟩ := hcov pid hpid
    have hsome : (preds.find? fun q => q.project_id == some pid).isSome :=
      List.find?_isSome.mpr ⟨p, hp, by simp [hpi]⟩
    obtain ⟨q, hq⟩ := Option.isSome_iff_exists.mp hsome
    have hqmatch : q.project_id = some pid := by
      have := List.find?_some hq
      simpa using this
    have hcell : cellFor pid (outcome dOk) = .predEntry q := by
      rw [hok]
      simp [cellFor, hq]
    have hmem : dOk ∈ types.filter (validPredTypes.contains ·) :=
      List.mem_filter.mpr ⟨hOkMem, List.elem_eq_true_of_mem hOkValid⟩
    have h1 : (dOk, outcome dOk) ∈
        (types.filter (validPredTypes.contains ·)).map fun t => (t, outcome t) :=
      List.mem_map.mpr ⟨dOk, hmem, rfl⟩
    have h2 := List.mem_map_of_mem
      (fun tr : String × DomainResult => (tr.1, cellFor pid tr.2)) h1
    exact ⟨q, by simpa [hcell] using h2, hqmatch⟩

/-- C5 (witness): the isolation property on a concrete batch — projects
`1, 2`, domains `completion_time` (succeeding with one prediction per
project) and `budget_variance` (raising internally). -/
theorem C5_batch_error_isolation_witness :
    ∃ row,
      ((1 : ℤ), row) ∈ batchPredict [1, 2] ["completion_time", "budget_variance"]
        (fun t => if t = "completion_time" then
            .ok [⟨some 1, "ct-p1"⟩, ⟨some 2, "ct-p2"⟩]
          else .err "Budget variance prediction failed") ∧
      ("budget_variance", BatchCell.errorEntry "Budget variance prediction failed") ∈ row ∧
      ∃ p, ("completion_time", BatchCell.predEntry p) ∈ row ∧ p.project_id = some 1 :=
  C5_batch_error_isolation [1, 2] ["completion_time", "budget_variance"]
    (fun t => if t = "completion_time" then
        .ok [⟨some 1, "ct-p1"⟩, ⟨some 2, "ct-p2"⟩]
      else .err "Budget variance prediction failed")
    "budget_variance" "completion_time" "Budget variance prediction failed"
    [⟨some 1, "ct-p1"⟩, ⟨some 2, "ct-p2"⟩]
    (by simp) (by simp [validPredTypes]) (by simp) (by simp [validPredTypes])
    (by simp) (by simp) (by decide) 1 (by simp)

/-- C10: `ModelMonitor.log_batch_predictions` divides the processing time by
the number of predictions: on an empty batch it raises `ZeroDivisionError`
and records nothing, and on any non-empty batch it succeeds, appending a
batch record whose size is the batch length and whose per-prediction average
is `processing_time / len(predictions)`. -/
theorem C10_log_batch_requires_nonempty (model_type : String)
    (predictions : List PredPayload) (processing_time : ℚ)
    (model_version : Option String) (history : List BatchRecord) :
    if predictions.isEmpty then
      logBatchPredictions model_type predictions processing_time model_version history =
        .error "ZeroDivisionError: division by zero"
    else
      ∃ rec, logBatchPredictions model_type predictions processing_time model_version
          history = .ok (rec, history ++ [rec]) ∧
        rec.batch_size = predictions.length ∧
        rec.avg_time_per_prediction_ms = processing_time / predictions.length := by
  by_cases h : predictions.isEmpty
  · rw [if_pos h]
    unfold logBatchPredictions
    rw [if_pos (by simpa [List.isEmpty_iff_length_eq_zero] using h)]
  · rw [if_neg h]
    refine ⟨⟨model_type, model_version, predictions.length, processing_time,
        processing_time / predictions.length, summarizePredictions predictions⟩,
      ?_, rfl, rfl⟩
    unfold logBatchPredictions
    rw [if_neg (by simpa [List.isEmpty_iff_length_eq_zero] using h)]

/-- C10 (witness): the characterisation applied to a concrete singleton
batch (and, via the `if`, exercising the non-error branch). -/
theorem C10_log_batch_requires_nonempty_witness :
    if ([⟨some 5, none, none⟩] : List PredPayload).isEmpty then
      logBatchPredictions "completion_time" [⟨some 5, none, none⟩] 12 none [] =
        .error "ZeroDivisionError: division by zero"
    else
      ∃ rec, logBatchPredictions "completion_time" [⟨some 5, none, none⟩] 12 none [] =
          .ok (rec, [] ++ [rec]) ∧
        rec.batch_size = ([⟨some 5, none, none⟩] : List PredPayload).length ∧
        rec.avg_time_per_prediction_ms =
          12 / (([⟨some 5, none, none⟩] : List PredPayload).length : ℚ) :=
  C10_log_batch_requires_nonempty "completion_time" [⟨some 5, none, none⟩] 12 none []

/-- C7 (counterexample): the budget-variance `fit` pipeline has no
missing-value drop: `mystery_col` is 100% missing in `bvX0` (fraction
`1 > 0.7`) yet survives into the fitted feature-name list. -/
theorem C7_counterexample :
    bvX0.getCol? "mystery_col" = some [none, none] ∧
    7/10 < missingFrac [none, none] ∧
    "mystery_col" ∈ bvFitNames bvX0 := by
  refine ⟨rfl, by norm_num [missingFrac, List.countP_cons, List.countP_nil], ?_⟩
  have hE : (engineerBV bvX0).cols.head? =
      some ("mystery_col", [none, none]) := by
    simp only [engineerBV]
    exact assign_head?_ne (assign_head?_ne (assign_head?_ne (assign_head?_ne
      (assign_head?_ne (assign_head?_ne (assign_head?_ne (assign_head?_ne
        rfl (by decide)) (by decide)) (by decide)) (by decide)) (by decide))
      (by decide)) (by decide)) (by decide)
  have hM : (handleMissingBV (engineerBV bvX0)).cols.head? =
      some ("mystery_col", [some 0, some 0]) := by
    simp only [handleMissingBV]
    rw [List.head?_map, hE]
    rfl
  have hR : (removeCorrelated (92/100) (selectNumeric (handleMissingBV
      (engineerBV bvX0)))).cols.head? =
      some ("mystery_col", [some 0, some 0]) :=
    removeCorrelated_head hM
  exact head?_mem_colNames hR

/-- C7 (amended): only the completion-time processor's `fit` applies the
missing-value drop.  There, on any input on which `fit` returns at all
(`actual_start_date` present, see the engineering error path), an input
column (under a duplicate-free header, with a name the feature engineering
does not assign) whose missing-value fraction exceeds `0.7` does not appear
in the fitted feature-name list.  The budget-variance and risk processors
have no such filter (`C7_counterexample`). -/
theorem C7_completion_time_high_missing_dropped {now : ℚ} {X : Frame}
    {start : List (Option ℚ)} {n : String} {c : List (Option ℚ)}
    (hstart : X.getCol? "actual_start_date" = some start)
    (hnd : X.colNames.Nodup) (hn : n ∉ ctEngineeredNames)
    (hcol : X.getCol? n = some c) (hfrac : 7/10 < missingFrac c) :
    ctFitNames now X = .ok (ctFitNamesFrom (engineerCTWith now X start)) ∧
    n ∉ ctFitNamesFrom (engineerCTWith now X start) := by
  constructor
  · unfold ctFitNames engineerCT
    rw [hstart]
    rfl
  · intro hmem
    unfold ctFitNamesFrom at hmem
    have h1 := removeCorrelated_colNames_subset _ _ hmem
    simp only [selectNumeric] at h1
    rw [handleMissingCT_colNames] at h1
    obtain ⟨c', hc'mem, _, hlt⟩ := dropHighMissing_mem h1
    have hfound : (engineerCTWith now X start).getCol? n = some c' :=
      getCol?_of_mem_nodup (engineerCTWith_nodup hnd) hc'mem
    rw [engineerCTWith_getCol?_ne hn, hcol] at hfound
    have hcc : c = c' := Option.some.inj hfound
    rw [← hcc] at hlt
    linarith

/-- C7 (witness): the completion-time drop theorem applied to the concrete
frame `w7X`, whose `bugs_found` column is entirely missing. -/
theorem C7_completion_time_high_missing_dropped_witness :
    w7X.getCol? "actual_start_date" = some [some 0] ∧
    w7X.colNames.Nodup ∧ "bugs_found" ∉ ctEngineeredNames ∧
    w7X.getCol? "bugs_found" = some [none] ∧
    7/10 < missingFrac [none] ∧
    (ctFitNames 0 w7X = .ok (ctFitNamesFrom (engineerCTWith 0 w7X [some 0])) ∧
      "bugs_found" ∉ ctFitNamesFrom (engineerCTWith 0 w7X [some 0])) :=
  ⟨rfl, by decide, by decide, rfl,
    by norm_num [missingFrac, List.countP_cons, List.countP_nil],
    C7_completion_time_high_missing_dropped rfl (by decide) (by decide) rfl
      (by norm_num [missingFrac, List.countP_cons, List.countP_nil])⟩

/-- C3 (counterexample): a fitted completion-time processor raises on any
input lacking `actual_start_date`: `features.get('actual_start_date',
'now')` yields a scalar, the timestamp subtraction is a scalar `Timedelta`,
and `.dt.days` raises `AttributeError`
(feature_engineering.py:137-139) — `transform` does not return. -/
theorem C3_counterexample :
    domainTransform (DomainTag.ct 0) c3St bvX0 =
      .error "AttributeError: 'Timedelta' object has no attribute 'dt'" := rfl

/-- C3 (amended): the completion-time `transform` raises `AttributeError`
whenever the input lacks `actual_start_date` (`C3_counterexample`).
Whenever domain engineering succeeds — always for the budget-variance and
risk domains, and exactly when `actual_start_date` is present for
completion time — a fitted `transform` (with scaler parameters for every
fit-time feature) does not raise: the output's column list is the fit-time
feature-name list (restricted to the fitted selector's choice when one
exists), and every fit-time column missing after re-engineering and
imputation is filled as a constant-`0` column by the reindex step. -/
theorem C3_transform_reindex_contract (d : DomainTag) (st : FittedState)
    (X E : Frame) (hfit : st.is_fitted = true)
    (hlen : st.feature_names.length ≤ st.scalerParams.length)
    (heng : domainEngineer d X = .ok E) :
    domainTransform d st X =
      .ok (selectSupport st.selectorSupport (scalerTransform st.scalerParams
        (reindexCols st.feature_names 0 (domainImpute d E)))) ∧
    (∀ Y, domainTransform d st X = .ok Y → Y.colNames = selectedNames st) ∧
    (∀ n ∈ st.feature_names,
      (domainImpute d E).getCol? n = none →
      (reindexCols st.feature_names 0 (domainImpute d E)).getCol? n =
        some (List.replicate (domainImpute d E).nrows (some 0))) := by
  have hok : domainTransform d st X =
      .ok (selectSupport st.selectorSupport (scalerTransform st.scalerParams
        (reindexCols st.feature_names 0 (domainImpute d E)))) := by
    simp only [domainTransform, transformWith]
    rw [if_neg (by simp [hfit]), heng]
  have hC : (scalerTransform st.scalerParams (reindexCols st.feature_names 0
      (domainImpute d E))).colNames = st.feature_names := by
    rw [scalerTransform_colNames, reindex_colNames]
    simpa [reindexCols] using hlen
  refine ⟨hok, ?_, ?_⟩
  · intro Y hY
    rw [hok] at hY
    have hYe := Except.ok.inj hY
    rw [← hYe]
    cases hsup : st.selectorSupport with
    | none => simpa [selectSupport, selectedNames, hsup] using hC
    | some idxs =>
      simp only [selectSupport, selectedNames, hsup, Frame.colNames,
        List.map_map]
      apply List.map_congr_left
      intro i _
      simp only [Function.comp]
      rw [colNames_getD, hC]
  · intro n hn hnone
    rw [reindex_getCol? hn, hnone]
    rfl

/-- C3 (witness): the transform contract applied to the budget-variance
domain, the concrete fitted state `c3St` and the frame `bvX0` (which lacks
`days_since_start` and most other engineering inputs). -/
theorem C3_transform_reindex_contract_witness :
    c3St.is_fitted = true ∧
    c3St.feature_names.length ≤ c3St.scalerParams.length ∧
    domainEngineer DomainTag.bv bvX0 = .ok (engineerBV bvX0) ∧
    (domainTransform DomainTag.bv c3St bvX0 =
        .ok (selectSupport c3St.selectorSupport
          (scalerTransform c3St.scalerParams (reindexCols c3St.feature_names 0
            (domainImpute DomainTag.bv (engineerBV bvX0))))) ∧
      (∀ Y, domainTransform DomainTag.bv c3St bvX0 = .ok Y →
        Y.colNames = selectedNames c3St) ∧
      (∀ n ∈ c3St.feature_names,
        (domainImpute DomainTag.bv (engineerBV bvX0)).getCol? n = none →
        (reindexCols c3St.feature_names 0
            (domainImpute DomainTag.bv (engineerBV bvX0))).getCol? n =
          some (List.replicate
            (domainImpute DomainTag.bv (engineerBV bvX0)).nrows (some 0)))) :=
  ⟨rfl, by decide, rfl,
    C3_transform_reindex_contract DomainTag.bv c3St bvX0 (engineerBV bvX0)
      rfl (by decide) rfl⟩

end RpaML
